import Mathlib

/-!
Verification of the OpenClaw browser-relay session core.

The definitions below are a shallow embedding of the TypeScript sources:
the background service worker (session table, attach/detach lifecycle,
reattach retry protocol, relay reconnect loop, CDP command router,
persistence) and the pure helper module (backoff delay, error
classification, URL skipping, port parsing).  Mutable module-level maps
and sets become fields of explicit state records; the JS `Map` and `Set`
are modelled as association lists with insertion-order semantics;
platform calls (chrome.debugger, chrome.tabs, WebSocket) become
environment records carrying their observable outcomes.
-/

set_option maxHeartbeats 1000000

namespace OpenClawRelay

/-! ### Association-list maps with the iteration-order semantics of JS Map -/

/-- Lookup in an association list (JS `Map.get`). -/
def mget [DecidableEq κ] (m : List (κ × α)) (k : κ) : Option α :=
  match m with
  | [] => none
  | (k₀, v₀) :: rest => if k₀ = k then some v₀ else mget rest k

/-- JS `Map.has`. -/
def mhas [DecidableEq κ] (m : List (κ × α)) (k : κ) : Bool :=
  (mget m k).isSome

/-- JS `Map.set`: replace in place when the key exists, else append
(preserving insertion order). -/
def mset [DecidableEq κ] (m : List (κ × α)) (k : κ) (v : α) : List (κ × α) :=
  match m with
  | [] => [(k, v)]
  | (k₀, v₀) :: rest => if k₀ = k then (k, v) :: rest else (k₀, v₀) :: mset rest k v

/-- JS `Map.delete`. -/
def mdel [DecidableEq κ] (m : List (κ × α)) (k : κ) : List (κ × α) :=
  match m with
  | [] => []
  | (k₀, v₀) :: rest => if k₀ = k then mdel rest k else (k₀, v₀) :: mdel rest k

/-- JS `Set.add` (appends when absent). -/
def sadd (s : List Nat) (x : Nat) : List Nat :=
  if x ∈ s then s else s ++ [x]

/-- JS `Set.delete`. -/
def sdel (s : List Nat) (x : Nat) : List Nat :=
  s.filter (fun y => y ≠ x)

theorem mget_mset_self [DecidableEq κ] (m : List (κ × α)) (k : κ) (v : α) :
    mget (mset m k v) k = some v := by
  induction m with
  | nil => simp [mget, mset]
  | cons p rest ih =>
    by_cases h : p.1 = k
    · simp [mset, mget, h]
    · simp [mset, mget, h, ih]

theorem mget_mset_ne [DecidableEq κ] (m : List (κ × α)) (k k₁ : κ) (v : α)
    (h : k₁ ≠ k) : mget (mset m k v) k₁ = mget m k₁ := by
  induction m with
  | nil => simp [mget, mset, Ne.symm h]
  | cons p rest ih =>
    rcases p with ⟨pk, pv⟩
    by_cases hp : pk = k
    · subst hp
      simp [mset, mget, Ne.symm h]
    · by_cases hq : pk = k₁ <;> simp [mset, mget, hp, hq, h, ih]

theorem mget_mdel_self [DecidableEq κ] (m : List (κ × α)) (k : κ) :
    mget (mdel m k) k = none := by
  induction m with
  | nil => simp [mget, mdel]
  | cons p rest ih =>
    rcases p with ⟨pk, pv⟩
    by_cases hp : pk = k
    · simpa [mdel, hp] using ih
    · simp [mdel, mget, hp, ih]

theorem mget_mdel_ne [DecidableEq κ] (m : List (κ × α)) (k k₁ : κ)
    (h : k₁ ≠ k) : mget (mdel m k) k₁ = mget m k₁ := by
  induction m with
  | nil => simp [mget, mdel]
  | cons p rest ih =>
    rcases p with ⟨pk, pv⟩
    by_cases hp : pk = k
    · subst hp
      simp [mdel, mget, Ne.symm h, ih]
    · by_cases hq : pk = k₁ <;> simp [mdel, mget, hp, hq, h, ih]

theorem mem_sadd (s : List Nat) (x y : Nat) (h : y ∈ s) : y ∈ sadd s x := by
  unfold sadd
  split <;> simp [h]

theorem self_mem_sadd (s : List Nat) (x : Nat) : x ∈ sadd s x := by
  unfold sadd
  split <;> simp_all

theorem mem_sdel (s : List Nat) (x y : Nat) (h : y ∈ s) (hne : y ≠ x) :
    y ∈ sdel s x := by
  simp [sdel, List.mem_filter, h, hne]

theorem not_mem_sdel_self (s : List Nat) (x : Nat) : x ∉ sdel s x := by
  simp [sdel, List.mem_filter]

/-! ### Decimal rendering (JS template interpolation of a number) -/

/-- ASCII digit character for a digit value below ten. -/
def digitChar10 (d : Nat) : Char := Char.ofNat (48 + d)

/-- Decimal rendering of a natural number, exactly what the JS template
string interpolation of a non-negative integer produces. -/
def natToDecimal (n : Nat) : String :=
  if n = 0 then "0" else ⟨(Nat.digits 10 n).reverse.map digitChar10⟩

theorem digitChar10_injOn :
    ∀ a < 10, ∀ b < 10, digitChar10 a = digitChar10 b → a = b := by decide

theorem map_digitChar10_inj :
    ∀ (l₁ l₂ : List Nat), (∀ x ∈ l₁, x < 10) → (∀ x ∈ l₂, x < 10) →
      l₁.map digitChar10 = l₂.map digitChar10 → l₁ = l₂ := by
  intro l₁
  induction l₁ with
  | nil =>
    intro l₂ _ _ h
    cases l₂ <;> simp_all
  | cons a as ih =>
    intro l₂ h₁ h₂ h
    cases l₂ with
    | nil => simp_all
    | cons b bs =>
      simp only [List.map_cons, List.cons.injEq] at h
      have ha : a < 10 := h₁ a (by simp)
      have hb : b < 10 := h₂ b (by simp)
      have hab := digitChar10_injOn a ha b hb h.1
      have htail := ih bs (fun x hx => h₁ x (by simp [hx]))
        (fun x hx => h₂ x (by simp [hx])) h.2
      simp [hab, htail]

theorem natToDecimal_injective : Function.Injective natToDecimal := by
  intro a b h
  unfold natToDecimal at h
  have hlt : (1 : Nat) < 10 := by norm_num
  by_cases ha : a = 0 <;> by_cases hb : b = 0
  · simp [ha, hb]
  · exfalso
    simp only [ha, if_pos rfl, if_neg hb] at h
    have hdata := congrArg String.data h
    have : (Nat.digits 10 b).reverse.map digitChar10 = [0].map digitChar10 := by
      simpa [digitChar10] using hdata.symm
    have hrev : (Nat.digits 10 b).reverse = [0] :=
      map_digitChar10_inj _ _
        (fun x hx => Nat.digits_lt_base hlt (List.mem_reverse.mp hx))
        (by simp) this
    have hdig : Nat.digits 10 b = [0] := by
      have := congrArg List.reverse hrev
      simpa using this
    have : b = Nat.ofDigits 10 (Nat.digits 10 b) := (Nat.ofDigits_digits 10 b).symm
    rw [hdig] at this
    simp [Nat.ofDigits] at this
    exact hb this
  · exfalso
    simp only [hb, if_pos rfl, if_neg ha] at h
    have hdata := congrArg String.data h
    have : (Nat.digits 10 a).reverse.map digitChar10 = [0].map digitChar10 := by
      simpa [digitChar10] using hdata
    have hrev : (Nat.digits 10 a).reverse = [0] :=
      map_digitChar10_inj _ _
        (fun x hx => Nat.digits_lt_base hlt (List.mem_reverse.mp hx))
        (by simp) this
    have hdig : Nat.digits 10 a = [0] := by
      have := congrArg List.reverse hrev
      simpa using this
    have : a = Nat.ofDigits 10 (Nat.digits 10 a) := (Nat.ofDigits_digits 10 a).symm
    rw [hdig] at this
    simp [Nat.ofDigits] at this
    exact ha this
  · simp only [if_neg ha, if_neg hb] at h
    have hdata := congrArg String.data h
    simp only at hdata
    have hmap : (Nat.digits 10 a).reverse.map digitChar10 =
        (Nat.digits 10 b).reverse.map digitChar10 := hdata
    have hrev : (Nat.digits 10 a).reverse = (Nat.digits 10 b).reverse :=
      map_digitChar10_inj _ _
        (fun x hx => Nat.digits_lt_base hlt (List.mem_reverse.mp hx))
        (fun x hx => Nat.digits_lt_base hlt (List.mem_reverse.mp hx)) hmap
    have hdig : Nat.digits 10 a = Nat.digits 10 b := by
      have := congrArg List.reverse hrev
      simpa using this
    exact Nat.digits.injective 10 hdig

/-- Session identifiers allocated by `attachTab`: the template string
interpolation of the monotonic counter. -/
def mkSessionId (sid : Nat) : String := "cb-tab-" ++ natToDecimal sid

theorem mkSessionId_injective : Function.Injective mkSessionId := by
  intro a b h
  have hdata := congrArg String.data h
  simp only [mkSessionId, String.data_append] at hdata
  have := List.append_cancel_left hdata
  have hstr : natToDecimal a = natToDecimal b := by
    cases ha : natToDecimal a with
    | mk da =>
      cases hb : natToDecimal b with
      | mk db =>
        rw [ha, hb] at this
        simp only at this
        simp [this]
  exact natToDecimal_injective hstr

theorem mkSessionId_ne_empty (sid : Nat) : mkSessionId sid ≠ "" := by
  intro h
  have := congrArg String.data h
  simp [mkSessionId, String.data_append, natToDecimal] at this

/-! ### JS truthiness helpers for optional strings -/

/-- JS truthiness of an optional string value: `undefined` and the empty
string are falsy. -/
def strTruthy (s : Option String) : Option String :=
  match s with
  | some v => if v = "" then none else some v
  | none => none

/-- JS `a || b` for an optional string `a` and string default `b`. -/
def jsOr (a : Option String) (b : String) : String :=
  match a with
  | some v => if v = "" then b else v
  | none => b

/-- ASCII whitespace recognised by JS `String.prototype.trim` (the source
only ever trims ASCII identifiers, so the ASCII subset is faithful). -/
def isJsSpace (c : Char) : Bool :=
  c = ' ' || c = '\t' || c = '\n' || c = '\r' || c = '\x0b' || c = '\x0c'

/-- JS `String.prototype.trim` on the character list. -/
def trimChars (l : List Char) : List Char :=
  ((l.dropWhile isJsSpace).reverse.dropWhile isJsSpace).reverse

/-- JS `String.prototype.trim`. -/
def strTrim (s : String) : String := ⟨trimChars s.data⟩

/-! ### Data model (src/types.ts and the module-level registries of the
background worker) -/

/-- `TabSession.state` values from src/types.ts. -/
inductive SessState
  | connecting
  | connected
deriving DecidableEq, Repr

/-- `TabSession` from src/types.ts: per-tab session record held in the
`tabs` map. -/
structure TabSession where
  state : SessState
  sessionId : Option String := none
  targetId : Option String := none
  attachOrder : Option Nat := none
  url : Option String := none
  title : Option String := none
  attachedAt : Option Nat := none
deriving DecidableEq, Repr

/-- `PersistedTab` from src/types.ts: one durable snapshot record. -/
structure PersistedTab where
  tabId : Nat
  sessionId : String
  targetId : String
  attachOrder : Nat
deriving DecidableEq, Repr

/-- The module-level mutable registries of the background worker, plus
`debuggerAttached`: the set of tabs the chrome.debugger platform layer
currently has this extension attached to (`chrome.debugger.attach`
rejects for a tab already in this set, `chrome.debugger.detach` removes
from it). -/
structure RelayState where
  tabs : List (Nat × TabSession) := []
  tabBySession : List (String × Nat) := []
  childSessionToTab : List (String × Nat) := []
  tabOperationLocks : List Nat := []
  reattachPending : List Nat := []
  nextSession : Nat := 1
  debuggerAttached : List Nat := []
deriving DecidableEq, Repr

/-- Observable outcomes of the platform calls `attachTab` performs:
whether `chrome.debugger.attach` succeeds, what `Target.getTargetInfo`
returns, and what `chrome.tabs.get` reports. -/
structure AttachEnv where
  attachOk : Bool := true
  targetInfoId : Option String := none
  tabUrl : Option String := none
  tabTitle : Option String := none
  tgUrl : Option String := none
  tgTitle : Option String := none
  now : Nat := 0
deriving DecidableEq, Repr

/-! ### attachTab / detachTab (background worker) -/

/-- `attachTab(tabId, opts)`.  Returns the state after the call together
with `some (sessionId, targetId)` on success, `none` when the call threw
(failed `chrome.debugger.attach` — in particular when a debugger is
already attached to the tab — or a missing/empty targetId from
`Target.getTargetInfo`).  The `skipAttachedEvent` option only suppresses
the best-effort notification send, which has no effect on local state. -/
def attachTab (env : AttachEnv) (s : RelayState) (tabId : Nat)
    (_skipAttachedEvent : Bool := false) :
    RelayState × Option (String × String) :=
  if tabId ∈ s.debuggerAttached ∨ env.attachOk = false then (s, none)
  else
    let s₁ := { s with debuggerAttached := sadd s.debuggerAttached tabId }
    match env.targetInfoId with
    | none => (s₁, none)
    | some rawTid =>
      let targetId := strTrim rawTid
      if targetId = "" then (s₁, none)
      else
        let sid := s₁.nextSession
        let sessionId := mkSessionId sid
        let tab : TabSession :=
          { state := .connected
            sessionId := some sessionId
            targetId := some targetId
            attachOrder := some sid
            url := some (jsOr env.tabUrl (jsOr env.tgUrl ""))
            title := some (jsOr env.tabTitle (jsOr env.tgTitle ""))
            attachedAt := some env.now }
        let s₂ := { s₁ with
          nextSession := sid + 1
          tabs := mset s₁.tabs tabId tab
          tabBySession := mset s₁.tabBySession sessionId tabId }
        (s₂, some (sessionId, targetId))

/-- `detachTab(tabId, reason)`: emits best-effort detached notifications
(no local state effect), removes all child-session mappings owned by the
tab, removes the session-index entry (guarded by JS truthiness of
`tab?.sessionId`), removes the tab entry, and releases the platform
attachment. -/
def detachTab (s : RelayState) (tabId : Nat) : RelayState :=
  let tab := mget s.tabs tabId
  let s₁ := { s with
    childSessionToTab := s.childSessionToTab.filter (fun p => p.2 ≠ tabId) }
  let s₂ :=
    match strTruthy (tab.bind (·.sessionId)) with
    | some sid => { s₁ with tabBySession := mdel s₁.tabBySession sid }
    | none => s₁
  { s₂ with
    tabs := mdel s₂.tabs tabId
    debuggerAttached := sdel s₂.debuggerAttached tabId }

/-! ### C1: bidirectional consistency of the session indices -/

/-- One attach or detach operation on the session table. -/
inductive TableStep : RelayState → RelayState → Prop
  | attach (env : AttachEnv) (tabId : Nat) (skip : Bool) (s : RelayState) :
      TableStep s (attachTab env s tabId skip).1
  | detach (tabId : Nat) (s : RelayState) :
      TableStep s (detachTab s tabId)

/-- The worker starts with empty registries and session counter 1. -/
def initialState : RelayState := {}

/-- States reachable by attach/detach sequences from the initial state. -/
def TableReachable (s : RelayState) : Prop :=
  Relation.ReflTransGen TableStep initialState s

/-- Bidirectional consistency of `tabs` and `tabBySession`: every
session-index entry points at a tab whose `sessionId` is that session id,
and every tab with a `sessionId` is indexed back to its tab id. -/
def BiConsistent (s : RelayState) : Prop :=
  (∀ sid tid, mget s.tabBySession sid = some tid →
    ∃ t, mget s.tabs tid = some t ∧ t.sessionId = some sid) ∧
  (∀ tid t sid, mget s.tabs tid = some t → t.sessionId = some sid →
    mget s.tabBySession sid = some tid)

/-- Auxiliary inductive invariant: bidirectional consistency, freshness of
allocated session ids against the counter, and the platform attachment
accounting that makes a second `chrome.debugger.attach` on a tracked tab
fail. -/
def TableInv (s : RelayState) : Prop :=
  BiConsistent s ∧
  (∀ tid t, mget s.tabs tid = some t →
    ∃ k, k < s.nextSession ∧ t.sessionId = some (mkSessionId k)) ∧
  (∀ tid t, mget s.tabs tid = some t → tid ∈ s.debuggerAttached)

theorem tableInv_initial : TableInv initialState := by
  refine ⟨⟨?_, ?_⟩, ?_, ?_⟩
  · intro sid tid hget
    simp [initialState, mget] at hget
  · intro tid t sid hget _
    simp [initialState, mget] at hget
  · intro tid t hget
    simp [initialState, mget] at hget
  · intro tid t hget
    simp [initialState, mget] at hget

theorem tableInv_attach (env : AttachEnv) (tabId : Nat) (skip : Bool)
    (s : RelayState) (h : TableInv s) :
    TableInv (attachTab env s tabId skip).1 := by
  obtain ⟨⟨hdir₁, hdir₂⟩, hfresh, hatt⟩ := h
  unfold attachTab
  by_cases hfail : tabId ∈ s.debuggerAttached ∨ env.attachOk = false
  · simpa [hfail] using ⟨⟨hdir₁, hdir₂⟩, hfresh, hatt⟩
  · simp only [if_neg hfail]
    push_neg at hfail
    have hnotatt : tabId ∉ s.debuggerAttached := hfail.1
    have htabs_none : mget s.tabs tabId = none := by
      cases htabs : mget s.tabs tabId with
      | none => rfl
      | some t => exact absurd (hatt tabId t htabs) hnotatt
    cases env.targetInfoId with
    | none =>
      refine ⟨⟨?_, ?_⟩, ?_, ?_⟩
      · exact hdir₁
      · exact hdir₂
      · exact hfresh
      · intro tid t htid
        exact mem_sadd _ _ _ (hatt tid t htid)
    | some rawTid =>
      by_cases hempty : strTrim rawTid = ""
      · simp only [if_pos hempty]
        refine ⟨⟨hdir₁, hdir₂⟩, hfresh, ?_⟩
        intro tid t htid
        exact mem_sadd _ _ _ (hatt tid t htid)
      · simp only [if_neg hempty]
        constructor
        · constructor
          · -- direction 1: session index entry has a matching tab entry
            intro sid tid hget
            by_cases hsid : sid = mkSessionId s.nextSession
            · subst hsid
              rw [mget_mset_self] at hget
              cases hget
              exact ⟨_, by rw [mget_mset_self], rfl⟩
            · rw [mget_mset_ne _ _ _ _ hsid] at hget
              obtain ⟨t, ht, hts⟩ := hdir₁ sid tid hget
              have htid_ne : tid ≠ tabId := by
                intro hEq
                rw [hEq, htabs_none] at ht
                cases ht
              exact ⟨t, by rw [mget_mset_ne _ _ _ _ htid_ne]; exact ht, hts⟩
          · -- direction 2: tab entry is indexed back
            intro tid t sid hget hts
            by_cases htid : tid = tabId
            · subst htid
              rw [mget_mset_self] at hget
              cases hget
              cases hts
              rw [mget_mset_self]
            · rw [mget_mset_ne _ _ _ _ htid] at hget
              obtain ⟨k, hk, hks⟩ := hfresh tid t hget
              have hsid_ne : sid ≠ mkSessionId s.nextSession := by
                rw [hks] at hts
                cases hts
                intro hEq
                exact absurd (mkSessionId_injective hEq) (Nat.ne_of_lt hk)
              rw [mget_mset_ne _ _ _ _ hsid_ne]
              exact hdir₂ tid t sid hget hts
        constructor
        · -- freshness against the incremented counter
          intro tid t hget
          by_cases htid : tid = tabId
          · subst htid
            rw [mget_mset_self] at hget
            cases hget
            exact ⟨s.nextSession, Nat.lt_succ_self _, rfl⟩
          · rw [mget_mset_ne _ _ _ _ htid] at hget
            obtain ⟨k, hk, hks⟩ := hfresh tid t hget
            exact ⟨k, Nat.lt_succ_of_lt hk, hks⟩
        · -- attachment accounting
          intro tid t hget
          by_cases htid : tid = tabId
          · subst htid
            exact self_mem_sadd _ _
          · rw [mget_mset_ne _ _ _ _ htid] at hget
            exact mem_sadd _ _ _ (hatt tid t hget)

theorem tableInv_detach (tabId : Nat) (s : RelayState) (h : TableInv s) :
    TableInv (detachTab s tabId) := by
  obtain ⟨⟨hdir₁, hdir₂⟩, hfresh, hatt⟩ := h
  unfold detachTab
  cases htab : mget s.tabs tabId with
  | none =>
    simp only [htab, Option.bind, strTruthy]
    refine ⟨⟨?_, ?_⟩, ?_, ?_⟩
    · intro sid tid hget
      simp only at hget
      obtain ⟨t, ht, hts⟩ := hdir₁ sid tid hget
      have htid_ne : tid ≠ tabId := by
        intro hEq
        rw [hEq, htab] at ht
        cases ht
      exact ⟨t, by rw [mget_mdel_ne _ _ _ htid_ne]; exact ht, hts⟩
    · intro tid t sid hget hts
      by_cases htid : tid = tabId
      · rw [htid, mget_mdel_self] at hget
        cases hget
      · rw [mget_mdel_ne _ _ _ htid] at hget
        exact hdir₂ tid t sid hget hts
    · intro tid t hget
      by_cases htid : tid = tabId
      · rw [htid, mget_mdel_self] at hget
        cases hget
      · rw [mget_mdel_ne _ _ _ htid] at hget
        exact hfresh tid t hget
    · intro tid t hget
      by_cases htid : tid = tabId
      · rw [htid, mget_mdel_self] at hget
        cases hget
      · rw [mget_mdel_ne _ _ _ htid] at hget
        exact mem_sdel _ _ _ (hatt tid t hget) htid
  | some tab =>
    obtain ⟨k, _, hks⟩ := hfresh tabId tab htab
    have htruthy : strTruthy (some tab |>.bind (·.sessionId)) =
        some (mkSessionId k) := by
      simp [Option.bind, hks, strTruthy, mkSessionId_ne_empty k]
    simp only [htab, htruthy]
    have hsidx : mget s.tabBySession (mkSessionId k) = some tabId :=
      hdir₂ tabId tab (mkSessionId k) htab hks
    refine ⟨⟨?_, ?_⟩, ?_, ?_⟩
    · intro sid tid hget
      by_cases hsid : sid = mkSessionId k
      · rw [hsid, mget_mdel_self] at hget
        cases hget
      · rw [mget_mdel_ne _ _ _ hsid] at hget
        obtain ⟨t, ht, hts⟩ := hdir₁ sid tid hget
        have htid_ne : tid ≠ tabId := by
          intro hEq
          rw [hEq, htab] at ht
          cases ht
          rw [hks] at hts
          cases hts
          exact hsid rfl
        exact ⟨t, by rw [mget_mdel_ne _ _ _ htid_ne]; exact ht, hts⟩
    · intro tid t sid hget hts
      by_cases htid : tid = tabId
      · rw [htid, mget_mdel_self] at hget
        cases hget
      · rw [mget_mdel_ne _ _ _ htid] at hget
        have hidx := hdir₂ tid t sid hget hts
        have hsid_ne : sid ≠ mkSessionId k := by
          intro hEq
          rw [hEq, hsidx] at hidx
          cases hidx
          exact htid rfl
        rw [mget_mdel_ne _ _ _ hsid_ne]
        exact hidx
    · intro tid t hget
      by_cases htid : tid = tabId
      · rw [htid, mget_mdel_self] at hget
        cases hget
      · rw [mget_mdel_ne _ _ _ htid] at hget
        exact hfresh tid t hget
    · intro tid t hget
      by_cases htid : tid = tabId
      · rw [htid, mget_mdel_self] at hget
        cases hget
      · rw [mget_mdel_ne _ _ _ htid] at hget
        exact mem_sdel _ _ _ (hatt tid t hget) htid

theorem tableInv_step {s s' : RelayState} (h : TableStep s s')
    (hinv : TableInv s) : TableInv s' := by
  cases h with
  | attach env tabId skip s => exact tableInv_attach env tabId skip s hinv
  | detach tabId s => exact tableInv_detach tabId s hinv

theorem tableInv_reachable {s : RelayState} (h : TableReachable s) :
    TableInv s := by
  induction h with
  | refl => exact tableInv_initial
  | tail _ hstep ih => exact tableInv_step hstep ih

/-- C1.  For every sequence of attach and detach operations on tabs,
after each completed operation the two session indices are
bidirectionally consistent: every entry sessionId → tabId in the session
index has a tab entry whose sessionId field equals that sessionId, and
every tab entry with a sessionId has the corresponding session-index
entry mapping back to its tabId (no orphaned half-mappings). -/
theorem attach_detach_sequences_biconsistent {s : RelayState}
    (h : TableReachable s) : BiConsistent s :=
  (tableInv_reachable h).1

/-- Witness for C1 at a concrete two-operation sequence: attach tab 7,
then attach tab 9, starting from the initial state. -/
theorem attach_detach_sequences_biconsistent_witness :
    BiConsistent ((attachTab { attachOk := true, targetInfoId := some "T1" }
        ((attachTab { attachOk := true, targetInfoId := some "T0" }
          initialState 7 false).1) 9 false).1) := by
  apply attach_detach_sequences_biconsistent
  exact Relation.ReflTransGen.tail
    (Relation.ReflTransGen.single
      (TableStep.attach { attachOk := true, targetInfoId := some "T0" } 7 false _))
    (TableStep.attach { attachOk := true, targetInfoId := some "T1" } 9 false _)

/-! ### Pure helpers (background-utils.ts) -/

/-- `l` begins with the run `p` (JS `String.prototype.startsWith` on
character lists). -/
def listBeginsWith [DecidableEq α] : List α → List α → Bool
  | _, [] => true
  | [], _ :: _ => false
  | a :: as, b :: bs => if a = b then listBeginsWith as bs else false

/-- JS `String.prototype.startsWith`. -/
def strBeginsWith (s p : String) : Bool := listBeginsWith s.data p.data

/-- `seg` occurs contiguously inside `l` (JS `String.prototype.includes`
on character lists). -/
def hasSegment [DecidableEq α] (l seg : List α) : Bool :=
  match l with
  | [] => listBeginsWith [] seg
  | _ :: rest => listBeginsWith l seg || hasSegment rest seg

/-- JS `String.prototype.includes`. -/
def strIncludes (s sub : String) : Bool := hasSegment s.data sub.data

/-- `isSkippableUrl(url)`: absent or empty urls and the four
non-debuggable scheme classes are skipped. -/
def isSkippableUrl (url : Option String) : Bool :=
  match url with
  | none => true
  | some u =>
    if u = "" then true
    else
      strBeginsWith u "chrome://" || strBeginsWith u "chrome-extension://" ||
        strBeginsWith u "about:" || strBeginsWith u "devtools://"

/-- `isRetryableReconnectError(err)`, applied to the extracted error
message: everything is retryable except a missing-gateway-token error. -/
def isRetryableReconnectError (message : String) : Bool :=
  !(strIncludes message "Missing gatewayToken")

/-- The message of the error `buildRelayWsUrl` throws when the configured
gateway token is absent (the non-retryable credential error class). -/
def missingTokenMessage : String :=
  "Missing gatewayToken in extension settings (chrome.storage.local.gatewayToken)"

/-! ### C7: reconnectDelayMs (background-utils.ts) -/

/-- `ReconnectOptions` from src/types.ts: a `none` field models an absent
or non-finite override, exactly what the `Number.isFinite` guards in
`reconnectDelayMs` fall back from. -/
structure ReconnectOpts where
  baseMs : Option ℚ := none
  maxMs : Option ℚ := none
  jitterMs : Option ℚ := none
deriving DecidableEq, Repr

/-- `reconnectDelayMs(attempt, opts)`.  `r` is the draw of the `random`
source (`Math.random()` contract: `0 ≤ r < 1`).  JS numbers are modelled
as rationals; for the default parameters the integer arithmetic is exact,
and for exponents at which the JS double would saturate the `min` against
`maxMs` makes the saturated and exact values agree. -/
def reconnectDelayMs (attempt : ℤ) (opts : ReconnectOpts) (r : ℚ) : ℚ :=
  let baseMs := opts.baseMs.getD 1000
  let maxMs := opts.maxMs.getD 30000
  let jitterMs := opts.jitterMs.getD 1000
  let safeAttempt := (max 0 attempt).toNat
  let backoff := min (baseMs * 2 ^ safeAttempt) maxMs
  backoff + max 0 jitterMs * r

/-- C7.  For every non-negative attempt count `n`, the reconnect delay
equals `min(base * 2^n, max)` plus a uniform jitter in `[0, jitter)`
(defaults base 1000ms, max 30000ms, jitter 1000ms); its deterministic
floor is non-decreasing in `n`; the result never exceeds `max + jitter`;
and arbitrarily large `n` is harmless: from attempt 5 on the floor is
exactly the 30000ms cap. -/
theorem reconnectDelay_spec :
    (∀ (n : ℕ) (r : ℚ), reconnectDelayMs n {} r
      = min ((1000 : ℚ) * 2 ^ n) 30000 + 1000 * r) ∧
    (∀ n m : ℕ, n ≤ m → reconnectDelayMs n {} 0 ≤ reconnectDelayMs m {} 0) ∧
    (∀ (n : ℕ) (r : ℚ), 0 ≤ r → r < 1 →
      reconnectDelayMs n {} r ≤ 30000 + 1000) ∧
    (∀ (n : ℕ), 5 ≤ n → ∀ r : ℚ, reconnectDelayMs n {} r = 30000 + 1000 * r) := by
  have hEval : ∀ (n : ℕ) (r : ℚ), reconnectDelayMs n {} r
      = min ((1000 : ℚ) * 2 ^ n) 30000 + 1000 * r := by
    intro n r
    unfold reconnectDelayMs
    norm_num
  refine ⟨hEval, ?_, ?_, ?_⟩
  · intro n m hnm
    rw [hEval, hEval]
    have : ((1000 : ℚ) * 2 ^ n) ≤ 1000 * 2 ^ m := by
      have := pow_le_pow_right₀ (by norm_num : (1 : ℚ) ≤ 2) hnm
      nlinarith
    simp only [mul_zero, add_zero]
    exact min_le_min this le_rfl
  · intro n r hr₀ hr₁
    rw [hEval]
    have h₁ : min ((1000 : ℚ) * 2 ^ n) 30000 ≤ 30000 := min_le_right _ _
    nlinarith
  · intro n hn r
    rw [hEval]
    have h32 : (2 : ℚ) ^ 5 ≤ 2 ^ n := pow_le_pow_right₀ (by norm_num) hn
    have : (30000 : ℚ) ≤ 1000 * 2 ^ n := by nlinarith
    rw [min_eq_right this]

/-- Witness for C7 at the concrete inputs n = 3 and n = 6, r = 1/2. -/
theorem reconnectDelay_spec_witness :
    reconnectDelayMs 3 {} (1 / 2) = min ((1000 : ℚ) * 2 ^ 3) 30000 + 1000 * (1 / 2) ∧
    reconnectDelayMs 3 {} (1 / 2) ≤ 30000 + 1000 ∧
    reconnectDelayMs 6 {} (1 / 2) = 30000 + 1000 * (1 / 2) :=
  ⟨reconnectDelay_spec.1 3 (1 / 2),
   reconnectDelay_spec.2.2.1 3 (1 / 2) (by norm_num) (by norm_num),
   reconnectDelay_spec.2.2.2 6 (by norm_num) (1 / 2)⟩

/-! ### C4 and C9: reconnect scheduling state machine -/

/-- The connection-manager state the reconnect logic mutates: whether the
relay socket is open, the backoff attempt counter, and whether a
reconnect timer is armed. -/
structure ConnState where
  wsOpen : Bool := false
  reconnectAttempt : Nat := 0
  timerArmed : Bool := false
deriving DecidableEq, Repr

/-- `scheduleReconnect()`: clears any armed timer, computes the delay
from the current counter, increments the counter, and arms the timer. -/
def scheduleReconnect (s : ConnState) : ConnState :=
  { s with timerArmed := true, reconnectAttempt := s.reconnectAttempt + 1 }

/-- `cancelReconnect()`: clears the timer and zeroes the counter. -/
def cancelReconnect (s : ConnState) : ConnState :=
  { s with timerArmed := false, reconnectAttempt := 0 }

/-- The code paths that touch the reconnect state.  `Fail` labels carry
the thrown error message. -/
inductive ConnLabel
  | ensureOk
  | ensureAlreadyOpen
  | ensureFail (err : String)
  | relayClosed
  | timerFireOk
  | timerFireFail (err : String)
  | cancel
  | alarmOk
  | alarmFail (err : String)
  | startupOk
  | startupFail (err : String)
deriving DecidableEq, Repr

/-- One event-loop step of the reconnect logic, labelled by its code
path.  `ensure*` are direct `ensureRelayConnection()` calls whose callers
do not schedule on failure (`autoAttachTab`, `onActionClicked`);
`relayClosed` is the socket close/error handler; `timerFire*` is the
reconnect-timer callback; `cancel` is `cancelReconnect()` (invoked from
the toolbar-click attach-all branch); `alarm*` is the keepalive alarm
handler; `startup*` is the initialization promise. -/
inductive ConnStep : ConnState → ConnLabel → ConnState → Prop
  | ensureOk (s : ConnState) : s.wsOpen = false →
      ConnStep s .ensureOk { s with wsOpen := true, reconnectAttempt := 0 }
  | ensureAlreadyOpen (s : ConnState) : s.wsOpen = true →
      ConnStep s .ensureAlreadyOpen s
  | ensureFail (s : ConnState) (e : String) : s.wsOpen = false →
      ConnStep s (.ensureFail e) s
  | relayClosed (s : ConnState) : s.wsOpen = true →
      ConnStep s .relayClosed (scheduleReconnect { s with wsOpen := false })
  | timerFireOk (s : ConnState) : s.timerArmed = true →
      ConnStep s .timerFireOk
        { s with timerArmed := false, wsOpen := true, reconnectAttempt := 0 }
  | timerFireFailRetry (s : ConnState) (e : String) : s.timerArmed = true →
      s.wsOpen = false → isRetryableReconnectError e = true →
      ConnStep s (.timerFireFail e) (scheduleReconnect { s with timerArmed := false })
  | timerFireFailHalt (s : ConnState) (e : String) : s.timerArmed = true →
      s.wsOpen = false → isRetryableReconnectError e = false →
      ConnStep s (.timerFireFail e) { s with timerArmed := false }
  | cancel (s : ConnState) : ConnStep s .cancel (cancelReconnect s)
  | alarmOk (s : ConnState) : s.wsOpen = false → s.timerArmed = false →
      ConnStep s .alarmOk { s with wsOpen := true, reconnectAttempt := 0 }
  | alarmFail (s : ConnState) (e : String) : s.wsOpen = false →
      s.timerArmed = false →
      ConnStep s (.alarmFail e) (scheduleReconnect s)
  | startupOk (s : ConnState) : s.wsOpen = false →
      ConnStep s .startupOk { s with wsOpen := true, reconnectAttempt := 0 }
  | startupFail (s : ConnState) (e : String) : s.wsOpen = false →
      ConnStep s (.startupFail e) (scheduleReconnect s)

/-- States reachable from the worker start state. -/
def ConnReachable (s : ConnState) : Prop :=
  Relation.ReflTransGen (fun a b => ∃ l, ConnStep a l b) {} s

/-- The labels whose step completes a successful connect-and-handshake
(the `ensureRelayConnection` promise resolved, leaving the socket open). -/
def isConnectSuccessLabel : ConnLabel → Bool
  | .ensureOk => true
  | .timerFireOk => true
  | .alarmOk => true
  | .startupOk => true
  | _ => false

/-- Counterexample to C4 as stated: from a reachable state with attempt
counter 1 (a connect, a drop, one scheduled retry), the user-initiated
`cancelReconnect` (toolbar click on the attach-all branch) resets the
counter to zero without any successful connection in that step. -/
theorem backoff_reset_only_after_success_counterexample :
    ConnReachable { wsOpen := false, reconnectAttempt := 1, timerArmed := true } ∧
    ConnStep { wsOpen := false, reconnectAttempt := 1, timerArmed := true }
      .cancel { wsOpen := false, reconnectAttempt := 0, timerArmed := false } ∧
    isConnectSuccessLabel .cancel = false ∧ (1 : Nat) ≠ 0 := by
  refine ⟨?_, ?_, rfl, by decide⟩
  · exact Relation.ReflTransGen.tail
      (Relation.ReflTransGen.single
        ⟨.ensureOk, ConnStep.ensureOk {} rfl⟩)
      ⟨.relayClosed, ConnStep.relayClosed
        { wsOpen := true, reconnectAttempt := 0, timerArmed := false } rfl⟩
  · exact ConnStep.cancel _

/-- C4 amended.  In every step of the reconnect logic, the backoff
attempt counter is reset to zero only by a step that completes a
successful connect-and-handshake or by the explicit user-initiated
`cancelReconnect` (toolbar-click attach-all); no other step zeroes a
non-zero counter. -/
theorem backoff_reset_classification {s : ConnState} {l : ConnLabel}
    {s' : ConnState} (h : ConnStep s l s') (hz : s'.reconnectAttempt = 0) :
    s.reconnectAttempt = 0 ∨ isConnectSuccessLabel l = true ∨ l = .cancel := by
  cases h with
  | ensureOk hws => exact Or.inr (Or.inl rfl)
  | ensureAlreadyOpen hws => exact Or.inl hz
  | ensureFail e hws => exact Or.inl hz
  | relayClosed hws => simp [scheduleReconnect] at hz
  | timerFireOk ht => exact Or.inr (Or.inl rfl)
  | timerFireFailRetry e ht hws hr => simp [scheduleReconnect] at hz
  | timerFireFailHalt e ht hws hr => exact Or.inl hz
  | cancel => exact Or.inr (Or.inr rfl)
  | alarmOk hws ht => exact Or.inr (Or.inl rfl)
  | alarmFail e hws ht => simp [scheduleReconnect] at hz
  | startupOk hws => exact Or.inr (Or.inl rfl)
  | startupFail e hws => simp [scheduleReconnect] at hz

/-- Witness for the amended C4 at a concrete step: the timer fires and
the connect succeeds from attempt counter 2. -/
theorem backoff_reset_classification_witness :
    { wsOpen := false, reconnectAttempt := 2, timerArmed := true : ConnState
      }.reconnectAttempt = 0 ∨
    isConnectSuccessLabel .timerFireOk = true ∨ ConnLabel.timerFireOk = .cancel :=
  backoff_reset_classification
    (ConnStep.timerFireOk
      { wsOpen := false, reconnectAttempt := 2, timerArmed := true } rfl) rfl

/-- Counterexample to C9 as stated: the keepalive-alarm path schedules a
reconnect after a failed connection attempt without consulting the
retryable classification, so the non-retryable missing-gateway-token
failure re-arms the timer there. -/
theorem nonretryable_rearm_counterexample :
    ConnStep { wsOpen := false, reconnectAttempt := 0, timerArmed := false }
      (.alarmFail missingTokenMessage)
      { wsOpen := false, reconnectAttempt := 1, timerArmed := true } ∧
    isRetryableReconnectError missingTokenMessage = false := by
  constructor
  · exact ConnStep.alarmFail
      { wsOpen := false, reconnectAttempt := 0, timerArmed := false }
      missingTokenMessage rfl rfl
  · decide

/-- C9 amended.  The reconnect-timer callback checks the
retryable/non-retryable classification before re-arming: a failure whose
error is non-retryable (missing gateway token) leaves the timer disarmed
on that path.  (The keepalive-alarm and startup failure paths schedule
without this check.) -/
theorem timer_retry_checks_classification {s : ConnState} {e : String}
    {s' : ConnState} (h : ConnStep s (.timerFireFail e) s')
    (hnr : isRetryableReconnectError e = false) : s'.timerArmed = false := by
  cases h with
  | timerFireFailRetry ht hws hr => simp_all
  | timerFireFailHalt ht hws hr => rfl

/-- Witness for the amended C9 at the concrete missing-token failure. -/
theorem timer_retry_checks_classification_witness :
    ({ wsOpen := false, reconnectAttempt := 1, timerArmed := false } :
      ConnState).timerArmed = false :=
  timer_retry_checks_classification
    (ConnStep.timerFireFailHalt
      { wsOpen := false, reconnectAttempt := 1, timerArmed := true }
      missingTokenMessage rfl rfl (by decide))
    (by decide)

/-! ### C3: auto-attach suppression -/

/-- Environment of a single-tab auto-attach: the stored auto-attach
setting, the own options-page url, whether `ensureRelayConnection()`
resolves, and the platform outcomes of the inner `attachTab`. -/
structure AutoAttachEnv where
  autoAttachEnabled : Bool := true
  ownOptionsUrl : String := "chrome-extension://self/options.html"
  relayConnectOk : Bool := true
  attachEnv : AttachEnv := {}
deriving DecidableEq, Repr

/-- `autoAttachTab(tabId, url)`.  The boolean reports whether an attach
was started (the guarded region around `attachTab` was entered). -/
def autoAttachTab (env : AutoAttachEnv) (s : RelayState) (tabId : Nat)
    (url : Option String) : RelayState × Bool :=
  if env.autoAttachEnabled = false then (s, false)
  else if mhas s.tabs tabId then (s, false)
  else if isSkippableUrl url then (s, false)
  else if tabId ∈ s.tabOperationLocks then (s, false)
  else if tabId ∈ s.reattachPending then (s, false)
  else if url = some env.ownOptionsUrl then (s, false)
  else if env.relayConnectOk = false then (s, false)
  else
    let s₁ := { s with tabOperationLocks := sadd s.tabOperationLocks tabId }
    let s₂ := (attachTab env.attachEnv s₁ tabId).1
    ({ s₂ with tabOperationLocks := sdel s₂.tabOperationLocks tabId }, true)

/-- One entry of the `chrome.tabs.query({})` result. -/
structure QueryTab where
  id : Option Nat := none
  url : Option String := none
deriving DecidableEq, Repr

/-- Environment of the attach-all sweep. -/
structure SweepEnv where
  autoAttachEnabled : Bool := true
  allTabs : List QueryTab := []
  ownOptionsUrl : String := "chrome-extension://self/options.html"
  attachEnv : Nat → AttachEnv := fun _ => {}

/-- One iteration of the `autoAttachAllTabs` loop.  The accumulated list
records the tab ids for which an attach was started. -/
def sweepStep (own : String) (aenv : Nat → AttachEnv)
    (acc : RelayState × List Nat) (qt : QueryTab) : RelayState × List Nat :=
  let s := acc.1
  let attempted := acc.2
  match qt.id with
  | none => (s, attempted)
  | some tabId =>
    if tabId = 0 then (s, attempted)
    else if mhas s.tabs tabId then (s, attempted)
    else if isSkippableUrl qt.url then (s, attempted)
    else if qt.url = some own then (s, attempted)
    else if tabId ∈ s.tabOperationLocks then (s, attempted)
    else
      let s₁ := { s with tabOperationLocks := sadd s.tabOperationLocks tabId }
      let s₂ := (attachTab (aenv tabId) s₁ tabId).1
      ({ s₂ with tabOperationLocks := sdel s₂.tabOperationLocks tabId },
        attempted ++ [tabId])

/-- `autoAttachAllTabs()` (the attach-all sweep used by `Tab.attachAll`,
the toolbar click, and startup): iterates every queried tab, skipping
tabs with a falsy id, tabs already in the table, skippable urls, the own
options page, and locked tabs — it does not consult the Pending Reattach
set. -/
def autoAttachAllTabs (env : SweepEnv) (s : RelayState) :
    RelayState × List Nat :=
  if env.autoAttachEnabled = false then (s, [])
  else env.allTabs.foldl (sweepStep env.ownOptionsUrl env.attachEnv) (s, [])

/-- Counterexample to C3 as stated: tab 5 is in the Pending Reattach set
(its table entry was removed by the involuntary-detach preamble, as the
reattach protocol does), yet the attach-all sweep starts an attach for
it. -/
theorem pending_reattach_suppression_counterexample :
    (autoAttachAllTabs
        { allTabs := [{ id := some 5, url := some "https://example.com" }]
          attachEnv := fun _ => { attachOk := true, targetInfoId := some "T5" } }
        { reattachPending := [5] }).2 = [5] ∧
      5 ∈ ({ reattachPending := [5] } : RelayState).reattachPending := by
  constructor
  · rfl
  · simp

/-- C3 amended.  The single-tab auto-attach path (`autoAttachTab`, used
by the tab-created/updated listeners and by the keepalive sweep)
suppresses every attach attempt for a tab in the Pending Reattach set:
the state is unchanged and no attach is started.  (The attach-all sweep
`autoAttachAllTabs` does not consult the Pending Reattach set and can
start an attach for a pending tab that is absent from the tab table.) -/
theorem autoAttachTab_suppressed_while_pending (env : AutoAttachEnv)
    (s : RelayState) (tabId : Nat) (url : Option String)
    (h : tabId ∈ s.reattachPending) :
    autoAttachTab env s tabId url = (s, false) := by
  unfold autoAttachTab
  split_ifs <;> rfl

/-- Witness for the amended C3: tab 5 pending, normal url, auto-attach
enabled — the single-tab path starts nothing. -/
theorem autoAttachTab_suppressed_while_pending_witness :
    autoAttachTab {} { reattachPending := [5] } 5 (some "https://example.com")
      = ({ reattachPending := [5] }, false) :=
  autoAttachTab_suppressed_while_pending {} { reattachPending := [5] } 5
    (some "https://example.com") (by simp)

/-! ### C5: command routing and target resolution -/

/-- `getTabBySessionId(sessionId)`: the main-session index first, the
child-session index second; JS truthiness makes an absent entry and a
zero tab id both fall through. -/
def getTabBySessionId (s : RelayState) (sessionId : String) :
    Option (Nat × String) :=
  let direct := mget s.tabBySession sessionId
  let child := mget s.childSessionToTab sessionId
  if direct.getD 0 ≠ 0 then some (direct.getD 0, "main")
  else if child.getD 0 ≠ 0 then some (child.getD 0, "child")
  else none

/-- `getTabByTargetId(targetId)`: first tab entry (in insertion order)
whose `targetId` field strictly equals the given target id. -/
def getTabByTargetId (s : RelayState) (targetId : String) : Option Nat :=
  lookupByTargetId s.tabs targetId
where
  lookupByTargetId : List (Nat × TabSession) → String → Option Nat
    | [], _ => none
    | (tid, t) :: rest, targetId =>
      if t.targetId = some targetId then some tid
      else lookupByTargetId rest targetId

/-- An inbound `forwardCDPCommand` message: the command name, the
optional explicit session id (`params.sessionId` when it is a string),
and the optional nested fields of `params.params` the router reads. -/
structure ForwardCmd where
  method : String := ""
  sessionId : Option String := none
  innerTargetId : Option String := none
  innerUrl : Option String := none
deriving DecidableEq, Repr

/-- The `bySession` constant of `resolveTabId`: the explicit session id,
when truthy, looked up in both session indices. -/
def sessionResolution (s : RelayState) (msg : ForwardCmd) :
    Option (Nat × String) :=
  match msg.sessionId with
  | some sid => if sid = "" then none else getTabBySessionId s sid
  | none => none

/-- The `byTarget` lookup of `resolveTabId`: the target id embedded in
nested parameters, when truthy. -/
def targetResolution (s : RelayState) (msg : ForwardCmd) : Option Nat :=
  match msg.innerTargetId with
  | some tid => if tid = "" then none else getTabByTargetId s tid
  | none => none

/-- First connected tab in table insertion order (the last-resort
fallback of `resolveTabId`). -/
def firstConnectedTab : List (Nat × TabSession) → Option Nat
  | [] => none
  | (tid, t) :: rest =>
    if t.state = .connected then some tid else firstConnectedTab rest

/-- `resolveTabId(msg)`: explicit session id first, embedded target id
second, any connected tab last. -/
def resolveTabId (s : RelayState) (msg : ForwardCmd) : Option Nat :=
  match sessionResolution s msg with
  | some r => some r.1
  | none =>
    match targetResolution s msg with
    | some bt => if bt = 0 then firstConnectedTab s.tabs else some bt
    | none => firstConnectedTab s.tabs

/-- What `handleForwardCdpCommand` decides to do with a message; the
actual platform calls and reply payloads sit behind each decision. -/
inductive RouteDecision
  | tabList
  | attachAll
  | getStatus
  | cookie (method : String)
  | download (method : String)
  | noAttachedTab (errorMessage : String)
  | runtimeEnable (tabId : Nat)
  | createTarget (url : String)
  | closeTarget (toClose : Option Nat)
  | activateTarget (toActivate : Option Nat)
  | dispatch (tabId : Nat) (method : String) (sessionOverride : Option String)
deriving DecidableEq, Repr

/-- The session attached to the generic `chrome.debugger.sendCommand`
debuggee: the explicit session id when it is truthy, the tab has a
truthy main session id, and the two differ (a child session). -/
def debuggerSessionOverride (s : RelayState) (sessionId : Option String)
    (tabId : Nat) : Option String :=
  match strTruthy sessionId, strTruthy ((mget s.tabs tabId).bind (·.sessionId)) with
  | some sid, some main => if sid = main then none else some sid
  | _, _ => none

/-- The routing structure of `handleForwardCdpCommand(msg)`: custom
relay-native commands and the auxiliary command families first, then
target resolution with the no-attached-tab failure, then the intercepted
target-lifecycle commands, then generic pass-through. -/
def routeForwardCdp (s : RelayState) (msg : ForwardCmd) : RouteDecision :=
  let method := strTrim msg.method
  if method = "Tab.list" then .tabList
  else if method = "Tab.attachAll" then .attachAll
  else if method = "Tab.getStatus" then .getStatus
  else if strBeginsWith method "Cookie." then .cookie method
  else if strBeginsWith method "Download." then .download method
  else
    match resolveTabId s msg with
    | none => .noAttachedTab ("No attached tab for method " ++ method)
    | some tabId =>
      if tabId = 0 then .noAttachedTab ("No attached tab for method " ++ method)
      else if method = "Runtime.enable" then .runtimeEnable tabId
      else if method = "Target.createTarget" then
        .createTarget (msg.innerUrl.getD "about:blank")
      else if method = "Target.closeTarget" then
        .closeTarget
          (if msg.innerTargetId.getD "" ≠ ""
            then getTabByTargetId s (msg.innerTargetId.getD "")
            else some tabId)
      else if method = "Target.activateTarget" then
        .activateTarget
          (if msg.innerTargetId.getD "" ≠ ""
            then getTabByTargetId s (msg.innerTargetId.getD "")
            else some tabId)
      else .dispatch tabId method (debuggerSessionOverride s msg.sessionId tabId)

/-- A relay state with zero connected sessions and empty indices. -/
def noSessionsState : RelayState :=
  { tabs := [], tabBySession := [], childSessionToTab := [] }

/-- A concrete relay state with one connected tab 9 and a child session
owned by tab 4, used to exercise the child-session resolution path. -/
def childRouteState : RelayState :=
  { tabs := [(9, { state := .connected, sessionId := some "cb-tab-1" })]
    tabBySession := [("cb-tab-1", 9)]
    childSessionToTab := [("childsess-AB", 4)] }

/-- C5.  Resolution order of inbound pass-through commands: (1) an
explicit truthy session id resolves through the main-session index
first, the child-session index second — a known child-session id yields
its owning tab and never reaches the fallback; (2) with no session
resolution, a truthy embedded target id resolves by target id; (3) with
neither, the first currently-connected tab is used; and when nothing
yields a tab — in particular with zero connected sessions — the command
is answered with the no-attached-tab error instead of being executed. -/
theorem command_resolution_order :
    (∀ (s : RelayState) (msg : ForwardCmd) (sid : String) (tid : Nat),
      msg.sessionId = some sid → sid ≠ "" →
      mget s.tabBySession sid = some tid → tid ≠ 0 →
      resolveTabId s msg = some tid) ∧
    (∀ (s : RelayState) (msg : ForwardCmd) (sid : String) (tid : Nat),
      msg.sessionId = some sid → sid ≠ "" →
      (mget s.tabBySession sid).getD 0 = 0 →
      mget s.childSessionToTab sid = some tid → tid ≠ 0 →
      resolveTabId s msg = some tid) ∧
    (∀ (s : RelayState) (msg : ForwardCmd) (tid : Nat),
      sessionResolution s msg = none →
      targetResolution s msg = some tid → tid ≠ 0 →
      resolveTabId s msg = some tid) ∧
    (∀ (s : RelayState) (msg : ForwardCmd),
      sessionResolution s msg = none → targetResolution s msg = none →
      resolveTabId s msg = firstConnectedTab s.tabs) ∧
    (∀ (s : RelayState) (msg : ForwardCmd),
      strTrim msg.method ≠ "Tab.list" → strTrim msg.method ≠ "Tab.attachAll" →
      strTrim msg.method ≠ "Tab.getStatus" →
      strBeginsWith (strTrim msg.method) "Cookie." = false →
      strBeginsWith (strTrim msg.method) "Download." = false →
      resolveTabId s msg = none →
      routeForwardCdp s msg
        = .noAttachedTab ("No attached tab for method " ++ strTrim msg.method)) ∧
    (∀ (msg : ForwardCmd),
      strTrim msg.method ≠ "Tab.list" → strTrim msg.method ≠ "Tab.attachAll" →
      strTrim msg.method ≠ "Tab.getStatus" →
      strBeginsWith (strTrim msg.method) "Cookie." = false →
      strBeginsWith (strTrim msg.method) "Download." = false →
      routeForwardCdp noSessionsState msg
        = .noAttachedTab ("No attached tab for method " ++ strTrim msg.method)) := by
  have hmain : ∀ (s : RelayState) (msg : ForwardCmd) (sid : String) (tid : Nat),
      msg.sessionId = some sid → sid ≠ "" →
      mget s.tabBySession sid = some tid → tid ≠ 0 →
      resolveTabId s msg = some tid := by
    intro s msg sid tid hmsg hne hget htid
    unfold resolveTabId sessionResolution getTabBySessionId
    rw [hmsg]
    simp [hne, hget, htid]
  have hchild : ∀ (s : RelayState) (msg : ForwardCmd) (sid : String) (tid : Nat),
      msg.sessionId = some sid → sid ≠ "" →
      (mget s.tabBySession sid).getD 0 = 0 →
      mget s.childSessionToTab sid = some tid → tid ≠ 0 →
      resolveTabId s msg = some tid := by
    intro s msg sid tid hmsg hne hdirect hget htid
    unfold resolveTabId sessionResolution getTabBySessionId
    rw [hmsg]
    simp [hne, hdirect, hget, htid]
  have htarget : ∀ (s : RelayState) (msg : ForwardCmd) (tid : Nat),
      sessionResolution s msg = none →
      targetResolution s msg = some tid → tid ≠ 0 →
      resolveTabId s msg = some tid := by
    intro s msg tid hs ht htid
    unfold resolveTabId
    rw [hs, ht]
    simp [htid]
  have hfall : ∀ (s : RelayState) (msg : ForwardCmd),
      sessionResolution s msg = none → targetResolution s msg = none →
      resolveTabId s msg = firstConnectedTab s.tabs := by
    intro s msg hs ht
    unfold resolveTabId
    rw [hs, ht]
  have herr : ∀ (s : RelayState) (msg : ForwardCmd),
      strTrim msg.method ≠ "Tab.list" → strTrim msg.method ≠ "Tab.attachAll" →
      strTrim msg.method ≠ "Tab.getStatus" →
      strBeginsWith (strTrim msg.method) "Cookie." = false →
      strBeginsWith (strTrim msg.method) "Download." = false →
      resolveTabId s msg = none →
      routeForwardCdp s msg
        = .noAttachedTab ("No attached tab for method " ++ strTrim msg.method) := by
    intro s msg h₁ h₂ h₃ h₄ h₅ hres
    unfold routeForwardCdp
    simp [h₁, h₂, h₃, h₄, h₅, hres]
  refine ⟨hmain, hchild, htarget, hfall, herr, ?_⟩
  intro msg h₁ h₂ h₃ h₄ h₅
  apply herr _ _ h₁ h₂ h₃ h₄ h₅
  have hs : sessionResolution noSessionsState msg = none := by
    unfold sessionResolution getTabBySessionId
    cases msg.sessionId with
    | none => rfl
    | some sid => simp [mget, noSessionsState]
  have ht : targetResolution noSessionsState msg = none := by
    unfold targetResolution getTabByTargetId
    cases msg.innerTargetId with
    | none => rfl
    | some tid => simp [getTabByTargetId.lookupByTargetId, noSessionsState]
  rw [hfall _ _ hs ht]
  rfl

/-- Witness for C5 at concrete inputs: a known child-session id resolves
to its owning tab 4, and an unknown method on an empty table produces
the no-attached-tab error. -/
theorem command_resolution_order_witness :
    resolveTabId childRouteState
        { method := "DOM.getDocument", sessionId := some "childsess-AB" }
      = some 4 ∧
    routeForwardCdp noSessionsState { method := "Page.navigate" }
      = .noAttachedTab "No attached tab for method Page.navigate" := by
  constructor
  · exact command_resolution_order.2.1 childRouteState
      { method := "DOM.getDocument", sessionId := some "childsess-AB" }
      "childsess-AB" 4 rfl (by decide) (by decide) (by decide) (by decide)
  · have := command_resolution_order.2.2.2.2.2
      { method := "Page.navigate" } (by decide) (by decide) (by decide)
      (by decide) (by decide)
    simpa using this

/-! ### C6: persistence and rehydration -/

/-- The durable record `persistState` pushes for one tab entry, when the
guard `tab.state === connected && tab.sessionId && tab.targetId`
passes. -/
def persistEntryOf (tabId : Nat) (t : TabSession) : Option PersistedTab :=
  match t.state, strTruthy t.sessionId, strTruthy t.targetId with
  | .connected, some sid, some tgt =>
    some { tabId := tabId, sessionId := sid, targetId := tgt,
           attachOrder := t.attachOrder.getD 0 }
  | _, _, _ => none

/-- The `tabEntries` array `persistState` builds, in map iteration
order. -/
def persistTabs : List (Nat × TabSession) → List PersistedTab
  | [] => []
  | (tabId, t) :: rest =>
    match persistEntryOf tabId t with
    | some e => e :: persistTabs rest
    | none => persistTabs rest

/-- What `persistState` writes to `chrome.storage.session`. -/
structure PersistSnapshot where
  persistedTabs : List PersistedTab
  nextSession : Nat
deriving DecidableEq, Repr

/-- `persistState()`: the durable snapshot of the current state. -/
def persistState (s : RelayState) : PersistSnapshot :=
  { persistedTabs := persistTabs s.tabs, nextSession := s.nextSession }

/-- The tab entry `rehydrateState` recreates from a snapshot record:
optimistically marked connected. -/
def restoredTab (e : PersistedTab) : TabSession :=
  { state := .connected, sessionId := some e.sessionId,
    targetId := some e.targetId, attachOrder := some e.attachOrder }

/-- First restore loop of `rehydrateState`: repopulate both indices from
every snapshot record. -/
def rehydratePhase1 (entries : List PersistedTab) (s : RelayState) :
    RelayState :=
  match entries with
  | [] => s
  | e :: rest =>
    rehydratePhase1 rest
      { s with
        tabs := mset s.tabs e.tabId (restoredTab e)
        tabBySession := mset s.tabBySession e.sessionId e.tabId }

/-- Second restore loop of `rehydrateState`: probe each restored tab
(`chrome.tabs.get` plus a `Runtime.evaluate` liveness probe, summarized
by `live`) and prune the entries that fail. -/
def rehydratePhase2 (live : Nat → Bool) (entries : List PersistedTab)
    (s : RelayState) : RelayState :=
  match entries with
  | [] => s
  | e :: rest =>
    if live e.tabId then rehydratePhase2 live rest s
    else
      rehydratePhase2 live rest
        { s with
          tabs := mdel s.tabs e.tabId
          tabBySession := mdel s.tabBySession e.sessionId }

/-- The session-counter seeding step of `rehydrateState` (the JS
truthiness guard skips a stored zero). -/
def seedNextSession (snap : PersistSnapshot) (s : RelayState) : RelayState :=
  if snap.nextSession ≠ 0
    then { s with nextSession := max s.nextSession snap.nextSession }
    else s

/-- `rehydrateState()`: seed the session counter from the snapshot,
repopulate optimistically, then probe and prune. -/
def rehydrateState (live : Nat → Bool) (snap : PersistSnapshot)
    (s : RelayState) : RelayState :=
  rehydratePhase2 live snap.persistedTabs
    (rehydratePhase1 snap.persistedTabs (seedNextSession snap s))

/-- The tabId → sessionId mapping the snapshot captures: the session id
of a connected tab entry with truthy session and target ids. -/
def connectedSessionOf (s : RelayState) (tid : Nat) : Option String :=
  ((mget s.tabs tid).bind (persistEntryOf tid)).map PersistedTab.sessionId

/-- Lookup of a snapshot record by tab id (first match). -/
def eLookup : List PersistedTab → Nat → Option PersistedTab
  | [], _ => none
  | e :: rest, tid => if e.tabId = tid then some e else eLookup rest tid

/-- Whether the prune loop deletes the entry for `tid`. -/
def prunedBy (live : Nat → Bool) (entries : List PersistedTab) (tid : Nat) :
    Bool :=
  match entries with
  | [] => false
  | e :: rest => (e.tabId = tid && !live e.tabId) || prunedBy live rest tid

theorem persistEntryOf_some {tabId : Nat} {t : TabSession} {e : PersistedTab}
    (h : persistEntryOf tabId t = some e) :
    e.tabId = tabId ∧ t.state = .connected ∧
      strTruthy t.sessionId = some e.sessionId ∧
      strTruthy t.targetId = some e.targetId ∧
      e.attachOrder = t.attachOrder.getD 0 := by
  unfold persistEntryOf at h
  split at h
  · cases h
    simp_all
  · cases h

theorem persistEntryOf_eq_some {tabId : Nat} {t : TabSession} {sid tgt : String}
    (hstate : t.state = .connected) (hsid : strTruthy t.sessionId = some sid)
    (htgt : strTruthy t.targetId = some tgt) :
    persistEntryOf tabId t
      = some { tabId := tabId, sessionId := sid, targetId := tgt,
               attachOrder := t.attachOrder.getD 0 } := by
  unfold persistEntryOf
  rw [hstate, hsid, htgt]

theorem mget_eq_none_of_not_mem_keys [DecidableEq κ] (m : List (κ × α)) (k : κ)
    (h : k ∉ m.map Prod.fst) : mget m k = none := by
  induction m with
  | nil => rfl
  | cons p rest ih =>
    simp only [List.map_cons, List.mem_cons] at h
    push_neg at h
    have hne : p.1 ≠ k := fun hEq => h.1 hEq.symm
    simp [mget, hne, ih h.2]

theorem eLookup_mem {entries : List PersistedTab} {tid : Nat} {e : PersistedTab}
    (h : eLookup entries tid = some e) : e.tabId = tid ∧ e ∈ entries := by
  induction entries with
  | nil => cases h
  | cons e₀ rest ih =>
    unfold eLookup at h
    by_cases h₀ : e₀.tabId = tid
    · rw [if_pos h₀] at h
      cases h
      exact ⟨h₀, by simp⟩
    · rw [if_neg h₀] at h
      obtain ⟨h₁, h₂⟩ := ih h
      exact ⟨h₁, by simp [h₂]⟩

theorem eLookup_none_iff {entries : List PersistedTab} {tid : Nat} :
    eLookup entries tid = none ↔ ∀ e ∈ entries, e.tabId ≠ tid := by
  induction entries with
  | nil => simp [eLookup]
  | cons e₀ rest ih =>
    unfold eLookup
    by_cases h₀ : e₀.tabId = tid <;> simp [h₀, ih]

theorem mget_rehydratePhase1 (entries : List PersistedTab) (tid : Nat) :
    ∀ s : RelayState,
      (entries.map PersistedTab.tabId).Nodup →
      mget (rehydratePhase1 entries s).tabs tid =
        match eLookup entries tid with
        | some e => some (restoredTab e)
        | none => mget s.tabs tid := by
  induction entries with
  | nil =>
    intro s _
    simp [rehydratePhase1, eLookup]
  | cons e rest ih =>
    intro s hnd
    simp only [List.map_cons, List.nodup_cons] at hnd
    unfold rehydratePhase1
    rw [ih _ hnd.2]
    cases heq : eLookup rest tid with
    | some e' =>
      obtain ⟨h₁, h₂⟩ := eLookup_mem heq
      have hne : e.tabId ≠ tid := by
        intro hEq
        exact hnd.1 (by rw [hEq, ← h₁]; exact List.mem_map_of_mem _ h₂)
      simp [eLookup, hne, heq]
    | none =>
      by_cases h₀ : e.tabId = tid
      · subst h₀
        simp [eLookup, heq, mget_mset_self]
      · simp [eLookup, h₀, heq, mget_mset_ne _ _ _ _ (fun hEq => h₀ hEq.symm)]

theorem mget_rehydratePhase2 (live : Nat → Bool) (entries : List PersistedTab)
    (tid : Nat) :
    ∀ s : RelayState,
      mget (rehydratePhase2 live entries s).tabs tid =
        if prunedBy live entries tid then none else mget s.tabs tid := by
  induction entries with
  | nil =>
    intro s
    simp [rehydratePhase2, prunedBy]
  | cons e rest ih =>
    intro s
    unfold rehydratePhase2 prunedBy
    by_cases hl : live e.tabId
    · rw [if_pos hl, ih]
      simp [hl]
    · rw [if_neg hl, ih]
      by_cases hp : prunedBy live rest tid
      · simp [hp]
      · by_cases h₀ : e.tabId = tid
        · subst h₀
          simp [hp, hl, mget_mdel_self]
        · simp [hp, hl, h₀,
            mget_mdel_ne _ _ _ (fun hEq => h₀ hEq.symm)]

theorem eLookup_persistTabs (tabs : List (Nat × TabSession)) (tid : Nat)
    (hnd : (tabs.map Prod.fst).Nodup) :
    eLookup (persistTabs tabs) tid = (mget tabs tid).bind (persistEntryOf tid) := by
  induction tabs with
  | nil => simp [persistTabs, eLookup, mget]
  | cons p rest ih =>
    rcases p with ⟨tid₀, t₀⟩
    simp only [List.map_cons, List.nodup_cons] at hnd
    unfold persistTabs
    cases hpe : persistEntryOf tid₀ t₀ with
    | some e₀ =>
      have he₀ := (persistEntryOf_some hpe).1
      by_cases h₀ : tid₀ = tid
      · subst h₀
        simp [eLookup, he₀, mget, hpe]
      · simp [eLookup, he₀, h₀, mget, ih hnd.2]
    | none =>
      by_cases h₀ : tid₀ = tid
      · subst h₀
        rw [ih hnd.2]
        have : mget rest tid₀ = none :=
          mget_eq_none_of_not_mem_keys _ _ hnd.1
        simp [mget, this, hpe]
      · simp [mget, h₀, ih hnd.2]

theorem prunedBy_iff (live : Nat → Bool) (entries : List PersistedTab)
    (tid : Nat) :
    prunedBy live entries tid = true ↔
      (∃ e ∈ entries, e.tabId = tid) ∧ live tid = false := by
  induction entries with
  | nil => simp [prunedBy]
  | cons e rest ih =>
    unfold prunedBy
    by_cases h₀ : e.tabId = tid
    · subst h₀
      by_cases hl : live e.tabId <;> simp [hl, ih]
    · simp only [Bool.or_eq_true, Bool.and_eq_true, ih]
      constructor
      · intro h
        rcases h with h | ⟨⟨e', he', hid⟩, hl⟩
        · simp only [Bool.not_eq_eq_eq_not, Bool.not_true, decide_eq_true_eq] at h
          exact absurd h.1 h₀
        · exact ⟨⟨e', by simp [he'], hid⟩, hl⟩
      · intro ⟨⟨e', he', hid⟩, hl⟩
        rcases List.mem_cons.mp he' with hEq | hmem
        · subst hEq
          exact absurd hid h₀
        · exact Or.inr ⟨⟨e', hmem, hid⟩, hl⟩

theorem seedNextSession_tabs (snap : PersistSnapshot) (s : RelayState) :
    (seedNextSession snap s).tabs = s.tabs := by
  unfold seedNextSession
  split <;> rfl

theorem persistTabs_keys_sublist (tabs : List (Nat × TabSession)) :
    ((persistTabs tabs).map PersistedTab.tabId).Sublist (tabs.map Prod.fst) := by
  induction tabs with
  | nil => simp [persistTabs]
  | cons p rest ih =>
    rcases p with ⟨tid₀, t₀⟩
    unfold persistTabs
    cases hpe : persistEntryOf tid₀ t₀ with
    | some e₀ =>
      have hid := (persistEntryOf_some hpe).1
      simpa [hid] using ih.cons₂ tid₀
    | none =>
      simpa using ih.cons tid₀

theorem persistTabs_sound (tabs : List (Nat × TabSession)) :
    ∀ e ∈ persistTabs tabs,
      ∃ t, (e.tabId, t) ∈ tabs ∧ t.state = .connected ∧
        strTruthy t.sessionId = some e.sessionId ∧
        strTruthy t.targetId = some e.targetId := by
  induction tabs with
  | nil =>
    intro e he
    simp [persistTabs] at he
  | cons p rest ih =>
    rcases p with ⟨tid₀, t₀⟩
    intro e he
    unfold persistTabs at he
    cases hpe : persistEntryOf tid₀ t₀ with
    | some e₀ =>
      simp only [hpe] at he
      rcases List.mem_cons.mp he with hEq | hmem
      · subst hEq
        obtain ⟨hid, hstate, hsid, htgt, _⟩ := persistEntryOf_some hpe
        exact ⟨t₀, by simp [hid], hstate, hsid, htgt⟩
      · obtain ⟨t, hmem₂, h₁, h₂, h₃⟩ := ih e hmem
        exact ⟨t, by simp [hmem₂], h₁, h₂, h₃⟩
    | none =>
      simp only [hpe] at he
      obtain ⟨t, hmem₂, h₁, h₂, h₃⟩ := ih e he
      exact ⟨t, by simp [hmem₂], h₁, h₂, h₃⟩

theorem persistTabs_complete (tabs : List (Nat × TabSession)) (tid : Nat)
    (t : TabSession) (sid tgt : String) (hmem : (tid, t) ∈ tabs)
    (hstate : t.state = .connected) (hsid : strTruthy t.sessionId = some sid)
    (htgt : strTruthy t.targetId = some tgt) :
    ∃ e ∈ persistTabs tabs, e.tabId = tid ∧ e.sessionId = sid ∧
      e.targetId = tgt := by
  induction tabs with
  | nil => cases hmem
  | cons p rest ih =>
    rcases p with ⟨tid₀, t₀⟩
    rcases List.mem_cons.mp hmem with hEq | hmem₂
    · rw [Prod.mk.injEq] at hEq
      obtain ⟨h₁, h₂⟩ := hEq
      subst h₁
      subst h₂
      unfold persistTabs
      rw [persistEntryOf_eq_some hstate hsid htgt]
      refine ⟨{ tabId := tid, sessionId := sid, targetId := tgt,
                attachOrder := t.attachOrder.getD 0 }, ?_, rfl, rfl, rfl⟩
      simp
    · obtain ⟨e, he, hf⟩ := ih hmem₂
      unfold persistTabs
      cases hpe : persistEntryOf tid₀ t₀ with
      | some e₀ => exact ⟨e, by simp [he], hf⟩
      | none => exact ⟨e, by simpa using he, hf⟩

theorem rehydrate_roundtrip_session (s : RelayState) (live : Nat → Bool)
    (hnd : (s.tabs.map Prod.fst).Nodup) (tid : Nat) :
    ((mget (rehydrateState live (persistState s) initialState).tabs tid).bind
        (fun t => t.sessionId))
      = if live tid then connectedSessionOf s tid else none := by
  have hkeys : ((persistTabs s.tabs).map PersistedTab.tabId).Nodup :=
    hnd.sublist (persistTabs_keys_sublist s.tabs)
  unfold rehydrateState persistState
  rw [mget_rehydratePhase2, mget_rehydratePhase1 _ _ _ hkeys]
  have hEL := eLookup_persistTabs s.tabs tid hnd
  cases hE : (mget s.tabs tid).bind (persistEntryOf tid) with
  | some e =>
    rw [hE] at hEL
    obtain ⟨hid, hmem⟩ := eLookup_mem hEL
    by_cases hl : live tid
    · have hpr : prunedBy live (persistTabs s.tabs) tid = false := by
        cases hpb : prunedBy live (persistTabs s.tabs) tid with
        | false => rfl
        | true =>
          have := ((prunedBy_iff live (persistTabs s.tabs) tid).mp hpb).2
          rw [hl] at this
          cases this
      rw [hEL, hpr]
      simp only [Bool.false_eq_true, if_false, if_pos hl]
      unfold connectedSessionOf
      rw [hE]
      rfl
    · have hpr : prunedBy live (persistTabs s.tabs) tid = true :=
        (prunedBy_iff live (persistTabs s.tabs) tid).mpr
          ⟨⟨e, hmem, hid⟩, by simpa using hl⟩
      rw [hEL, hpr]
      simp [hl]
  | none =>
    rw [hE] at hEL
    have hpr : prunedBy live (persistTabs s.tabs) tid = false := by
      cases hpb : prunedBy live (persistTabs s.tabs) tid with
      | false => rfl
      | true =>
        obtain ⟨⟨e, hmem, hid⟩, _⟩ :=
          (prunedBy_iff live (persistTabs s.tabs) tid).mp hpb
        exact absurd hid (eLookup_none_iff.mp hEL e hmem)
    rw [hEL, hpr]
    have hinit : mget (seedNextSession
        { persistedTabs := persistTabs s.tabs, nextSession := s.nextSession }
        initialState).tabs tid = none := by
      rw [seedNextSession_tabs]
      rfl
    rw [hinit]
    unfold connectedSessionOf
    rw [hE]
    cases live tid <;> rfl

/-- C6.  The snapshot written by persistence contains exactly the tabs
whose state is connected (a connecting entry is never persisted), and
restoring that snapshot reproduces the same tabId → sessionId mapping
for every tab that passes the liveness probe, with entries whose tab no
longer exists or fails the probe pruned. -/
theorem snapshot_roundtrip :
    (∀ (s : RelayState) (e : PersistedTab),
      e ∈ (persistState s).persistedTabs →
      ∃ t, (e.tabId, t) ∈ s.tabs ∧ t.state = .connected ∧
        strTruthy t.sessionId = some e.sessionId ∧
        strTruthy t.targetId = some e.targetId) ∧
    (∀ (s : RelayState) (tid : Nat) (t : TabSession) (sid tgt : String),
      (tid, t) ∈ s.tabs → t.state = .connected →
      strTruthy t.sessionId = some sid → strTruthy t.targetId = some tgt →
      ∃ e ∈ (persistState s).persistedTabs,
        e.tabId = tid ∧ e.sessionId = sid ∧ e.targetId = tgt) ∧
    (∀ (s : RelayState) (live : Nat → Bool),
      (s.tabs.map Prod.fst).Nodup →
      ∀ tid : Nat,
        ((mget (rehydrateState live (persistState s) initialState).tabs tid).bind
            (fun t => t.sessionId))
          = if live tid then connectedSessionOf s tid else none) :=
  ⟨fun s => persistTabs_sound s.tabs,
   fun s tid t sid tgt hmem hstate hsid htgt =>
     persistTabs_complete s.tabs tid t sid tgt hmem hstate hsid htgt,
   rehydrate_roundtrip_session⟩

/-- A concrete state with two connected tabs, for the C6 witness. -/
def twoTabState : RelayState :=
  { tabs := [(3, { state := .connected, sessionId := some "cb-tab-1"
                   targetId := some "TA", attachOrder := some 1 }),
             (8, { state := .connected, sessionId := some "cb-tab-2"
                   targetId := some "TB", attachOrder := some 2 })]
    tabBySession := [("cb-tab-1", 3), ("cb-tab-2", 8)]
    nextSession := 3 }

/-- Witness for C6: on the two-tab state, with tab 8 failing the
liveness probe, the restored mapping keeps tab 3 and prunes tab 8. -/
theorem snapshot_roundtrip_witness :
    (((mget (rehydrateState (fun tid => tid != 8) (persistState twoTabState)
          initialState).tabs 3).bind (fun t => t.sessionId))
        = if (3 : Nat) != 8 then connectedSessionOf twoTabState 3 else none) ∧
    (((mget (rehydrateState (fun tid => tid != 8) (persistState twoTabState)
          initialState).tabs 8).bind (fun t => t.sessionId))
        = if (8 : Nat) != 8 then connectedSessionOf twoTabState 8 else none) := by
  exact ⟨snapshot_roundtrip.2.2 twoTabState (fun tid => tid != 8) (by decide) 3,
         snapshot_roundtrip.2.2 twoTabState (fun tid => tid != 8) (by decide) 8⟩

/-! ### C2 and C8: involuntary detach, the reattach retry loop, tab
removal, and reconnect re-announcement -/

/-- Observable platform outcomes of one iteration of the reattach retry
loop: whether an external event (tab removal) cleared the Pending
Reattach membership during the delay, whether `chrome.tabs.get`
succeeds, whether the relay socket is open, and the outcomes of the two
possible `attachTab` calls of the iteration (the notification-suppressed
one used while the relay is down, and the normal one). -/
structure RetryEnv where
  cancelled : Bool := false
  tabExists : Bool := true
  relayOpen : Bool := true
  attachEnvNoEvent : AttachEnv := {}
  attachEnvMain : AttachEnv := {}
deriving DecidableEq, Repr

/-- The fixed retry delays of the reattach protocol. -/
def reattachDelays : List Nat := [300, 700, 1500]

/-- The retry loop of `onDebuggerDetach`, walking the remaining
(delay, iteration-environment) pairs.  The returned list records the
delays actually slept, in order.  Each iteration sleeps, re-checks the
Pending Reattach membership (cooperative cancellation), confirms the tab
still exists (abandoning otherwise), and attempts the attach — twice
when the relay is down: first suppressing the attached notification,
then normally.  Falling off the loop clears Pending Reattach and leaves
the tab detached. -/
def runReattach (tabId : Nat) :
    List (Nat × RetryEnv) → RelayState → RelayState × List Nat
  | [], s => ({ s with reattachPending := sdel s.reattachPending tabId }, [])
  | (delay, env) :: rest, s =>
    let s₀ := if env.cancelled
      then { s with reattachPending := sdel s.reattachPending tabId }
      else s
    if tabId ∉ s₀.reattachPending then (s₀, [delay])
    else if env.tabExists = false then
      ({ s₀ with reattachPending := sdel s₀.reattachPending tabId }, [delay])
    else if env.relayOpen = false then
      match attachTab env.attachEnvNoEvent s₀ tabId true with
      | (s₁, some _) =>
        ({ s₁ with reattachPending := sdel s₁.reattachPending tabId }, [delay])
      | (s₁, none) =>
        match attachTab env.attachEnvMain s₁ tabId false with
        | (s₂, some _) =>
          ({ s₂ with reattachPending := sdel s₂.reattachPending tabId }, [delay])
        | (s₂, none) =>
          let r := runReattach tabId rest s₂
          (r.1, delay :: r.2)
    else
      match attachTab env.attachEnvMain s₀ tabId false with
      | (s₁, some _) =>
        ({ s₁ with reattachPending := sdel s₁.reattachPending tabId }, [delay])
      | (s₁, none) =>
        let r := runReattach tabId rest s₁
        (r.1, delay :: r.2)

/-- The stale-session removal `onDebuggerDetach` performs before the
retry loop: drop the session-index entry (JS truthiness guard), the tab
entry, and every child-session mapping owned by the tab, then mark the
tab Pending Reattach. -/
def reattachPreamble (s : RelayState) (tabId : Nat) : RelayState :=
  { s with
    tabBySession :=
      match strTruthy ((mget s.tabs tabId).bind (·.sessionId)) with
      | some sid => mdel s.tabBySession sid
      | none => s.tabBySession
    tabs := mdel s.tabs tabId
    childSessionToTab := s.childSessionToTab.filter (fun p => p.2 ≠ tabId)
    reattachPending := sadd s.reattachPending tabId }

/-- Observable platform outcomes of `onDebuggerDetach`: what
`chrome.tabs.get` reports for the detached tab (`none` models a throw,
`some url?` the returned tab with its optional url), and the per-retry
environments. -/
structure DetachEnv where
  tabInfo : Option (Option String) := none
  retries : List RetryEnv := []
deriving DecidableEq, Repr

/-- `onDebuggerDetach(source, reason)`.  The platform has already
released the attachment when this handler fires, so the debugger
bookkeeping drops the tab first.  Permanent reasons, a vanished tab, and
a now-skippable url perform a normal detach; a tab already Pending
Reattach is left to the running loop; otherwise the stale entries are
removed, the tab is marked Pending Reattach, and the bounded retry loop
runs. -/
def onDebuggerDetach (env : DetachEnv) (s : RelayState) (tabId : Nat)
    (reason : String) : RelayState × List Nat :=
  let s₀ := { s with debuggerAttached := sdel s.debuggerAttached tabId }
  if tabId = 0 then (s₀, [])
  else if mhas s₀.tabs tabId = false then (s₀, [])
  else if reason = "canceled_by_user" ∨ reason = "replaced_with_devtools" then
    (detachTab s₀ tabId, [])
  else
    match env.tabInfo with
    | none => (detachTab s₀ tabId, [])
    | some url =>
      if isSkippableUrl url then (detachTab s₀ tabId, [])
      else if tabId ∈ s₀.reattachPending then (s₀, [])
      else
        runReattach tabId (reattachDelays.zip env.retries)
          (reattachPreamble s₀ tabId)

/-- The `chrome.tabs.onRemoved` listener: always clear Pending Reattach;
when the tab is tracked, drop the session-index entry (JS truthiness
guard), the tab entry, and the tab's child-session mappings, and emit
the best-effort detached notification. -/
def onTabRemoved (s : RelayState) (tabId : Nat) : RelayState :=
  let s₀ := { s with reattachPending := sdel s.reattachPending tabId }
  if mhas s₀.tabs tabId = false then s₀
  else
    { s₀ with
      tabBySession :=
        match strTruthy ((mget s₀.tabs tabId).bind (·.sessionId)) with
        | some sid => mdel s₀.tabBySession sid
        | none => s₀.tabBySession
      tabs := mdel s₀.tabs tabId
      childSessionToTab := s₀.childSessionToTab.filter (fun p => p.2 ≠ tabId) }

/-- One iteration of `reannounceAttachedTabs` over a tab entry: skip
entries that are not connected with truthy ids; re-emit the attached
notification when the liveness probe passes (no state change); on probe
failure drop the tab entry and its session-index entry — the child
mappings are not touched. -/
def reannounceStep (probe : Nat → Bool) (s : RelayState)
    (p : Nat × TabSession) : RelayState :=
  if p.2.state = .connected ∧ (strTruthy p.2.sessionId).isSome ∧
      (strTruthy p.2.targetId).isSome then
    if probe p.1 then s
    else
      { s with
        tabs := mdel s.tabs p.1
        tabBySession :=
          match strTruthy p.2.sessionId with
          | some sid => mdel s.tabBySession sid
          | none => s.tabBySession }
  else s

/-- `reannounceAttachedTabs()` after a successful reconnect: walk the
tracked tabs (each iteration removes at most its own entry, so folding
over the original entry list matches the live-map iteration), pruning
entries whose liveness probe fails. -/
def reannounceAttachedTabs (probe : Nat → Bool) (s : RelayState) :
    RelayState :=
  s.tabs.foldl (reannounceStep probe) s

theorem runReattach_nil (tabId : Nat) (s : RelayState) :
    runReattach tabId [] s
      = ({ s with reattachPending := sdel s.reattachPending tabId }, []) := rfl

theorem runReattach_cancelled_or_gone_pending (tabId : Nat) (d : Nat)
    (e : RetryEnv) (rest : List (Nat × RetryEnv)) (s : RelayState)
    (hc : e.cancelled = false) (hpend : tabId ∈ s.reattachPending)
    (hex : e.tabExists = false) :
    runReattach tabId ((d, e) :: rest) s
      = ({ s with reattachPending := sdel s.reattachPending tabId }, [d]) := by
  unfold runReattach
  rw [hc]
  simp only [if_false, Bool.false_eq_true]
  rw [if_neg (by simpa using hpend), if_pos hex]

theorem runReattach_cleanFail_step (tabId : Nat) (d : Nat) (e : RetryEnv)
    (rest : List (Nat × RetryEnv)) (s : RelayState)
    (hpend : tabId ∈ s.reattachPending) (hc : e.cancelled = false)
    (hex : e.tabExists = true) (hro : e.relayOpen = true)
    (hao : e.attachEnvMain.attachOk = false) :
    runReattach tabId ((d, e) :: rest) s
      = ((runReattach tabId rest s).1, d :: (runReattach tabId rest s).2) := by
  conv_lhs => unfold runReattach
  rw [hc]
  simp only [if_false, Bool.false_eq_true]
  rw [if_neg (by simpa using hpend)]
  rw [if_neg (by rw [hex]; exact fun h => Bool.true_eq_false.mp h)]
  rw [if_neg (by rw [hro]; exact fun h => Bool.true_eq_false.mp h)]
  have hfail : attachTab e.attachEnvMain s tabId false = (s, none) := by
    unfold attachTab
    rw [if_pos (Or.inr hao)]
  rw [hfail]

theorem runReattach_success_step (tabId : Nat) (d : Nat) (e : RetryEnv)
    (rest : List (Nat × RetryEnv)) (s : RelayState) (tid₀ : String)
    (hpend : tabId ∈ s.reattachPending) (hc : e.cancelled = false)
    (hex : e.tabExists = true) (hro : e.relayOpen = true)
    (hao : e.attachEnvMain.attachOk = true)
    (hatt : tabId ∉ s.debuggerAttached)
    (hti : e.attachEnvMain.targetInfoId = some tid₀)
    (htr : strTrim tid₀ ≠ "") :
    (runReattach tabId ((d, e) :: rest) s).2 = [d] ∧
    tabId ∉ (runReattach tabId ((d, e) :: rest) s).1.reattachPending ∧
    ∃ t, mget (runReattach tabId ((d, e) :: rest) s).1.tabs tabId = some t ∧
      t.state = .connected ∧ t.sessionId = some (mkSessionId s.nextSession) := by
  have hsucc : attachTab e.attachEnvMain s tabId false
      = ({ s with
            debuggerAttached := sadd s.debuggerAttached tabId
            nextSession := s.nextSession + 1
            tabs := mset s.tabs tabId
              { state := .connected
                sessionId := some (mkSessionId s.nextSession)
                targetId := some (strTrim tid₀)
                attachOrder := some s.nextSession
                url := some (jsOr e.attachEnvMain.tabUrl
                  (jsOr e.attachEnvMain.tgUrl ""))
                title := some (jsOr e.attachEnvMain.tabTitle
                  (jsOr e.attachEnvMain.tgTitle ""))
                attachedAt := some e.attachEnvMain.now }
            tabBySession := mset s.tabBySession (mkSessionId s.nextSession) tabId },
          some (mkSessionId s.nextSession, strTrim tid₀)) := by
    unfold attachTab
    rw [if_neg (by simp [hatt, hao])]
    rw [hti]
    simp only [if_neg htr]
  have hstep : runReattach tabId ((d, e) :: rest) s
      = (let res := attachTab e.attachEnvMain s tabId false
         ({ res.1 with reattachPending := sdel res.1.reattachPending tabId }, [d])) := by
    unfold runReattach
    rw [hc]
    simp only [if_false, Bool.false_eq_true]
    rw [if_neg (by simpa using hpend)]
    rw [if_neg (by rw [hex]; exact fun h => Bool.true_eq_false.mp h)]
    rw [if_neg (by rw [hro]; exact fun h => Bool.true_eq_false.mp h)]
    rw [hsucc]
  rw [hstep, hsucc]
  exact ⟨rfl, not_mem_sdel_self _ _, ⟨_, mget_mset_self _ _ _, rfl, rfl⟩⟩

theorem attachTab_childSessions (env : AttachEnv) (s : RelayState)
    (tabId : Nat) (skip : Bool) :
    (attachTab env s tabId skip).1.childSessionToTab = s.childSessionToTab := by
  unfold attachTab
  split
  · rfl
  · split
    · rfl
    · next rawTid heq =>
      by_cases hEq : strTrim rawTid = "" <;> simp [hEq]

theorem runReattach_childSessions (tabId : Nat) :
    ∀ (l : List (Nat × RetryEnv)) (s : RelayState),
      (runReattach tabId l s).1.childSessionToTab = s.childSessionToTab := by
  intro l
  induction l with
  | nil => intro s; rfl
  | cons p rest ih =>
    intro s
    rcases p with ⟨d, e⟩
    unfold runReattach
    set s₀ := (if e.cancelled = true
      then { s with reattachPending := sdel s.reattachPending tabId }
      else s) with hs₀
    have hchild : s₀.childSessionToTab = s.childSessionToTab := by
      rw [hs₀]; split <;> rfl
    by_cases h₁ : tabId ∉ s₀.reattachPending
    · rw [if_pos h₁]; exact hchild
    · rw [if_neg h₁]
      by_cases h₂ : e.tabExists = false
      · rw [if_pos h₂]; exact hchild
      · rw [if_neg h₂]
        by_cases h₃ : e.relayOpen = false
        · rw [if_pos h₃]
          cases hA : attachTab e.attachEnvNoEvent s₀ tabId true with
          | mk s₁ res₁ =>
            have hc₁ : s₁.childSessionToTab = s₀.childSessionToTab := by
              have := attachTab_childSessions e.attachEnvNoEvent s₀ tabId true
              rw [hA] at this
              exact this
            cases res₁ with
            | some v => simp only [hA]; exact hc₁.trans hchild
            | none =>
              simp only [hA]
              cases hB : attachTab e.attachEnvMain s₁ tabId false with
              | mk s₂ res₂ =>
                have hc₂ : s₂.childSessionToTab = s₁.childSessionToTab := by
                  have := attachTab_childSessions e.attachEnvMain s₁ tabId false
                  rw [hB] at this
                  exact this
                cases res₂ with
                | some v =>
                  simp only [hB]
                  exact hc₂.trans (hc₁.trans hchild)
                | none =>
                  simp only [hB]
                  exact (ih s₂).trans (hc₂.trans (hc₁.trans hchild))
        · rw [if_neg h₃]
          cases hA : attachTab e.attachEnvMain s₀ tabId false with
          | mk s₁ res₁ =>
            have hc₁ : s₁.childSessionToTab = s₀.childSessionToTab := by
              have := attachTab_childSessions e.attachEnvMain s₀ tabId false
              rw [hA] at this
              exact this
            cases res₁ with
            | some v => simp only [hA]; exact hc₁.trans hchild
            | none =>
              simp only [hA]
              exact (ih s₁).trans (hc₁.trans hchild)

theorem map_fst_zip_take {α β : Type _} :
    ∀ (l₁ : List α) (l₂ : List β),
      (l₁.zip l₂).map Prod.fst = l₁.take l₂.length := by
  intro l₁
  induction l₁ with
  | nil => intro l₂; simp
  | cons a as ih =>
    intro l₂
    cases l₂ with
    | nil => simp
    | cons b bs => simp [ih]

theorem runReattach_delays (tabId : Nat) :
    ∀ (l : List (Nat × RetryEnv)) (s : RelayState),
      ∃ k, (runReattach tabId l s).2 = (l.map Prod.fst).take k := by
  intro l
  induction l with
  | nil =>
    intro s
    exact ⟨0, rfl⟩
  | cons p rest ih =>
    intro s
    rcases p with ⟨d, e⟩
    unfold runReattach
    set s₀ := (if e.cancelled = true
      then { s with reattachPending := sdel s.reattachPending tabId }
      else s) with hs₀
    by_cases h₁ : tabId ∉ s₀.reattachPending
    · rw [if_pos h₁]
      exact ⟨1, by simp⟩
    · rw [if_neg h₁]
      by_cases h₂ : e.tabExists = false
      · rw [if_pos h₂]
        exact ⟨1, by simp⟩
      · rw [if_neg h₂]
        by_cases h₃ : e.relayOpen = false
        · rw [if_pos h₃]
          cases hA : attachTab e.attachEnvNoEvent s₀ tabId true with
          | mk s₁ res₁ =>
            cases res₁ with
            | some v => exact ⟨1, by simp [hA]⟩
            | none =>
              simp only [hA]
              cases hB : attachTab e.attachEnvMain s₁ tabId false with
              | mk s₂ res₂ =>
                cases res₂ with
                | some v => exact ⟨1, by simp [hB]⟩
                | none =>
                  obtain ⟨k, hk⟩ := ih s₂
                  exact ⟨k + 1, by simp [hB, hk]⟩
        · rw [if_neg h₃]
          cases hA : attachTab e.attachEnvMain s₀ tabId false with
          | mk s₁ res₁ =>
            cases res₁ with
            | some v => exact ⟨1, by simp [hA]⟩
            | none =>
              obtain ⟨k, hk⟩ := ih s₁
              exact ⟨k + 1, by simp [hA, hk]⟩

/-- The conditions under which `onDebuggerDetach` treats the detach as
recoverable and enters the reattach protocol: a real tab id, a tracked
tab, a non-permanent reason, a still-existing tab with a non-skippable
url, and no reattach already pending. -/
def RecoverableDetach (env : DetachEnv) (s : RelayState) (tabId : Nat)
    (reason : String) (u : Option String) : Prop :=
  tabId ≠ 0 ∧ mhas s.tabs tabId = true ∧ reason ≠ "canceled_by_user" ∧
  reason ≠ "replaced_with_devtools" ∧ env.tabInfo = some u ∧
  isSkippableUrl u = false ∧ tabId ∉ s.reattachPending

/-- A retry iteration in which the tab exists, the relay is open, and
the attach attempt fails at the platform layer. -/
def RetryCleanFail (e : RetryEnv) : Prop :=
  e.cancelled = false ∧ e.tabExists = true ∧ e.relayOpen = true ∧
  e.attachEnvMain.attachOk = false

/-- A retry iteration in which the tab no longer exists. -/
def RetryTabGone (e : RetryEnv) : Prop :=
  e.cancelled = false ∧ e.tabExists = false

/-- A retry iteration in which the attach attempt fully succeeds,
reporting target id `tid₀`. -/
def RetryCleanSuccess (e : RetryEnv) (tid₀ : String) : Prop :=
  e.cancelled = false ∧ e.tabExists = true ∧ e.relayOpen = true ∧
  e.attachEnvMain.attachOk = true ∧
  e.attachEnvMain.targetInfoId = some tid₀ ∧ strTrim tid₀ ≠ ""

theorem onDebuggerDetach_recoverable (env : DetachEnv) (s : RelayState)
    (tabId : Nat) (reason : String) (u : Option String)
    (h : RecoverableDetach env s tabId reason u) :
    onDebuggerDetach env s tabId reason
      = runReattach tabId (reattachDelays.zip env.retries)
          (reattachPreamble
            { s with debuggerAttached := sdel s.debuggerAttached tabId }
            tabId) := by
  obtain ⟨h₀, hhas, hr₁, hr₂, hti, hsk, hnp⟩ := h
  unfold onDebuggerDetach
  rw [if_neg h₀]
  rw [if_neg (fun hf => absurd (hhas.symm.trans hf) (by decide))]
  rw [if_neg (by rintro (hEq | hEq); exacts [hr₁ hEq, hr₂ hEq])]
  rw [hti]
  simp only
  rw [if_neg (fun hf => absurd (hsk.symm.trans hf) (by decide))]
  rw [if_neg (by simpa using hnp)]

theorem reattachPreamble_pending (s : RelayState) (tabId : Nat) :
    tabId ∈ (reattachPreamble s tabId).reattachPending :=
  self_mem_sadd _ _

theorem reattachPreamble_tabs (s : RelayState) (tabId : Nat) :
    mget (reattachPreamble s tabId).tabs tabId = none :=
  mget_mdel_self _ _

theorem detachTab_children (s : RelayState) (tabId : Nat) :
    ∀ (c : String) (tid : Nat),
      (c, tid) ∈ (detachTab s tabId).childSessionToTab → tid ≠ tabId := by
  intro c tid hmem
  cases hm : strTruthy ((mget s.tabs tabId).bind (·.sessionId)) with
  | some sid =>
    simp only [detachTab, hm] at hmem
    simpa using (List.mem_filter.mp hmem).2
  | none =>
    simp only [detachTab, hm] at hmem
    simpa using (List.mem_filter.mp hmem).2

/-- C2.  The reattach protocol of an involuntary recoverable detach: the
per-call delay trace is always an initial run of the fixed 300/700/1500
schedule (at most 3 retries); a vanished tab at any retry abandons the
protocol, clearing Pending Reattach and leaving the tab detached; a
successful attach at any retry clears Pending Reattach and stops with
the tab re-attached; and exhausting all three retries leaves the tab
detached with Pending Reattach cleared. -/
theorem reattach_protocol_bounded_retries :
    (∀ (env : DetachEnv) (s : RelayState) (tabId : Nat) (reason : String),
      ∃ k, (onDebuggerDetach env s tabId reason).2 = reattachDelays.take k ∧
        (onDebuggerDetach env s tabId reason).2.length ≤ 3) ∧
    (∀ (env : DetachEnv) (s : RelayState) (tabId : Nat) (reason : String)
        (u : Option String) (e₁ e₂ e₃ : RetryEnv),
      RecoverableDetach env s tabId reason u → env.retries = [e₁, e₂, e₃] →
      RetryTabGone e₁ →
      (onDebuggerDetach env s tabId reason).2 = [300] ∧
      tabId ∉ (onDebuggerDetach env s tabId reason).1.reattachPending ∧
      mget (onDebuggerDetach env s tabId reason).1.tabs tabId = none) ∧
    (∀ (env : DetachEnv) (s : RelayState) (tabId : Nat) (reason : String)
        (u : Option String) (e₁ e₂ e₃ : RetryEnv),
      RecoverableDetach env s tabId reason u → env.retries = [e₁, e₂, e₃] →
      RetryCleanFail e₁ → RetryTabGone e₂ →
      (onDebuggerDetach env s tabId reason).2 = [300, 700] ∧
      tabId ∉ (onDebuggerDetach env s tabId reason).1.reattachPending ∧
      mget (onDebuggerDetach env s tabId reason).1.tabs tabId = none) ∧
    (∀ (env : DetachEnv) (s : RelayState) (tabId : Nat) (reason : String)
        (u : Option String) (e₁ e₂ e₃ : RetryEnv) (tid₀ : String),
      RecoverableDetach env s tabId reason u → env.retries = [e₁, e₂, e₃] →
      RetryCleanSuccess e₁ tid₀ →
      (onDebuggerDetach env s tabId reason).2 = [300] ∧
      tabId ∉ (onDebuggerDetach env s tabId reason).1.reattachPending ∧
      (∃ t, mget (onDebuggerDetach env s tabId reason).1.tabs tabId = some t ∧
        t.state = .connected)) ∧
    (∀ (env : DetachEnv) (s : RelayState) (tabId : Nat) (reason : String)
        (u : Option String) (e₁ e₂ e₃ : RetryEnv) (tid₀ : String),
      RecoverableDetach env s tabId reason u → env.retries = [e₁, e₂, e₃] →
      RetryCleanFail e₁ → RetryCleanSuccess e₂ tid₀ →
      (onDebuggerDetach env s tabId reason).2 = [300, 700] ∧
      tabId ∉ (onDebuggerDetach env s tabId reason).1.reattachPending ∧
      (∃ t, mget (onDebuggerDetach env s tabId reason).1.tabs tabId = some t ∧
        t.state = .connected)) ∧
    (∀ (env : DetachEnv) (s : RelayState) (tabId : Nat) (reason : String)
        (u : Option String) (e₁ e₂ e₃ : RetryEnv) (tid₀ : String),
      RecoverableDetach env s tabId reason u → env.retries = [e₁, e₂, e₃] →
      RetryCleanFail e₁ → RetryCleanFail e₂ → RetryCleanSuccess e₃ tid₀ →
      (onDebuggerDetach env s tabId reason).2 = [300, 700, 1500] ∧
      tabId ∉ (onDebuggerDetach env s tabId reason).1.reattachPending ∧
      (∃ t, mget (onDebuggerDetach env s tabId reason).1.tabs tabId = some t ∧
        t.state = .connected)) ∧
    (∀ (env : DetachEnv) (s : RelayState) (tabId : Nat) (reason : String)
        (u : Option String) (e₁ e₂ e₃ : RetryEnv),
      RecoverableDetach env s tabId reason u → env.retries = [e₁, e₂, e₃] →
      RetryCleanFail e₁ → RetryCleanFail e₂ → RetryCleanFail e₃ →
      (onDebuggerDetach env s tabId reason).2 = [300, 700, 1500] ∧
      tabId ∉ (onDebuggerDetach env s tabId reason).1.reattachPending ∧
      mget (onDebuggerDetach env s tabId reason).1.tabs tabId = none) := by
  refine ⟨?_, ?_, ?_, ?_, ?_, ?_, ?_⟩
  · -- the delay trace is an initial run of the fixed schedule
    intro env s tabId reason
    have hlen : ∀ m, (reattachDelays.take m).length ≤ 3 := by
      intro m
      rw [List.length_take, show reattachDelays.length = 3 from rfl]
      exact min_le_right m 3
    unfold onDebuggerDetach
    by_cases h₀ : tabId = 0
    · rw [if_pos h₀]
      exact ⟨0, rfl, hlen 0⟩
    · rw [if_neg h₀]
      by_cases h₁ : mhas ({ s with
          debuggerAttached := sdel s.debuggerAttached tabId } :
            RelayState).tabs tabId = false
      · rw [if_pos h₁]
        exact ⟨0, rfl, hlen 0⟩
      · rw [if_neg h₁]
        by_cases h₂ : reason = "canceled_by_user" ∨
            reason = "replaced_with_devtools"
        · rw [if_pos h₂]
          exact ⟨0, rfl, hlen 0⟩
        · rw [if_neg h₂]
          cases hti : env.tabInfo with
          | none =>
            simp only [hti]
            exact ⟨0, rfl, hlen 0⟩
          | some url =>
            simp only [hti]
            by_cases h₃ : isSkippableUrl url = true
            · rw [if_pos h₃]
              exact ⟨0, rfl, hlen 0⟩
            · rw [if_neg h₃]
              by_cases h₄ : tabId ∈ ({ s with
                  debuggerAttached := sdel s.debuggerAttached tabId } :
                    RelayState).reattachPending
              · rw [if_pos h₄]
                exact ⟨0, rfl, hlen 0⟩
              · rw [if_neg h₄]
                obtain ⟨k, hk⟩ := runReattach_delays tabId
                  (reattachDelays.zip env.retries)
                  (reattachPreamble { s with
                    debuggerAttached := sdel s.debuggerAttached tabId } tabId)
                rw [map_fst_zip_take, List.take_take] at hk
                exact ⟨min k env.retries.length, hk, by rw [hk]; exact hlen _⟩
  · -- tab gone at the first retry: abandon
    intro env s tabId reason u e₁ e₂ e₃ h hret hg
    rw [onDebuggerDetach_recoverable env s tabId reason u h, hret]
    rw [show reattachDelays.zip [e₁, e₂, e₃]
      = [(300, e₁), (700, e₂), (1500, e₃)] from rfl]
    rw [runReattach_cancelled_or_gone_pending _ _ _ _ _ hg.1
      (reattachPreamble_pending _ _) hg.2]
    exact ⟨rfl, not_mem_sdel_self _ _, reattachPreamble_tabs _ _⟩
  · -- clean failure, then tab gone at the second retry: abandon
    intro env s tabId reason u e₁ e₂ e₃ h hret hf₁ hg
    rw [onDebuggerDetach_recoverable env s tabId reason u h, hret]
    rw [show reattachDelays.zip [e₁, e₂, e₃]
      = [(300, e₁), (700, e₂), (1500, e₃)] from rfl]
    rw [runReattach_cleanFail_step _ _ _ _ _ (reattachPreamble_pending _ _)
      hf₁.1 hf₁.2.1 hf₁.2.2.1 hf₁.2.2.2]
    rw [runReattach_cancelled_or_gone_pending _ _ _ _ _ hg.1
      (reattachPreamble_pending _ _) hg.2]
    exact ⟨rfl, not_mem_sdel_self _ _, reattachPreamble_tabs _ _⟩
  · -- success at the first retry
    intro env s tabId reason u e₁ e₂ e₃ tid₀ h hret hs₁
    rw [onDebuggerDetach_recoverable env s tabId reason u h, hret]
    rw [show reattachDelays.zip [e₁, e₂, e₃]
      = [(300, e₁), (700, e₂), (1500, e₃)] from rfl]
    have hattP : tabId ∉ (reattachPreamble { s with
        debuggerAttached := sdel s.debuggerAttached tabId }
          tabId).debuggerAttached := not_mem_sdel_self _ _
    obtain ⟨ht, hp, t, hmt, hst, _⟩ := runReattach_success_step tabId 300 e₁
      [(700, e₂), (1500, e₃)]
      (reattachPreamble { s with
        debuggerAttached := sdel s.debuggerAttached tabId } tabId) tid₀
      (reattachPreamble_pending _ _)
      hs₁.1 hs₁.2.1 hs₁.2.2.1 hs₁.2.2.2.1 hattP
      hs₁.2.2.2.2.1 hs₁.2.2.2.2.2
    exact ⟨ht, hp, t, hmt, hst⟩
  · -- clean failure, then success at the second retry
    intro env s tabId reason u e₁ e₂ e₃ tid₀ h hret hf₁ hs₂
    rw [onDebuggerDetach_recoverable env s tabId reason u h, hret]
    rw [show reattachDelays.zip [e₁, e₂, e₃]
      = [(300, e₁), (700, e₂), (1500, e₃)] from rfl]
    rw [runReattach_cleanFail_step _ _ _ _ _ (reattachPreamble_pending _ _)
      hf₁.1 hf₁.2.1 hf₁.2.2.1 hf₁.2.2.2]
    have hattP : tabId ∉ (reattachPreamble { s with
        debuggerAttached := sdel s.debuggerAttached tabId }
          tabId).debuggerAttached := not_mem_sdel_self _ _
    obtain ⟨ht, hp, t, hmt, hst, _⟩ := runReattach_success_step tabId 700 e₂
      [(1500, e₃)]
      (reattachPreamble { s with
        debuggerAttached := sdel s.debuggerAttached tabId } tabId) tid₀
      (reattachPreamble_pending _ _)
      hs₂.1 hs₂.2.1 hs₂.2.2.1 hs₂.2.2.2.1 hattP
      hs₂.2.2.2.2.1 hs₂.2.2.2.2.2
    rw [ht]
    exact ⟨rfl, hp, t, hmt, hst⟩
  · -- two clean failures, then success at the third retry
    intro env s tabId reason u e₁ e₂ e₃ tid₀ h hret hf₁ hf₂ hs₃
    rw [onDebuggerDetach_recoverable env s tabId reason u h, hret]
    rw [show reattachDelays.zip [e₁, e₂, e₃]
      = [(300, e₁), (700, e₂), (1500, e₃)] from rfl]
    rw [runReattach_cleanFail_step _ _ _ _ _ (reattachPreamble_pending _ _)
      hf₁.1 hf₁.2.1 hf₁.2.2.1 hf₁.2.2.2]
    rw [runReattach_cleanFail_step _ _ _ _ _ (reattachPreamble_pending _ _)
      hf₂.1 hf₂.2.1 hf₂.2.2.1 hf₂.2.2.2]
    have hattP : tabId ∉ (reattachPreamble { s with
        debuggerAttached := sdel s.debuggerAttached tabId }
          tabId).debuggerAttached := not_mem_sdel_self _ _
    obtain ⟨ht, hp, t, hmt, hst, _⟩ := runReattach_success_step tabId 1500 e₃
      []
      (reattachPreamble { s with
        debuggerAttached := sdel s.debuggerAttached tabId } tabId) tid₀
      (reattachPreamble_pending _ _)
      hs₃.1 hs₃.2.1 hs₃.2.2.1 hs₃.2.2.2.1 hattP
      hs₃.2.2.2.2.1 hs₃.2.2.2.2.2
    rw [ht]
    exact ⟨rfl, hp, t, hmt, hst⟩
  · -- all three retries fail: detached, Pending Reattach cleared
    intro env s tabId reason u e₁ e₂ e₃ h hret hf₁ hf₂ hf₃
    rw [onDebuggerDetach_recoverable env s tabId reason u h, hret]
    rw [show reattachDelays.zip [e₁, e₂, e₃]
      = [(300, e₁), (700, e₂), (1500, e₃)] from rfl]
    rw [runReattach_cleanFail_step _ _ _ _ _ (reattachPreamble_pending _ _)
      hf₁.1 hf₁.2.1 hf₁.2.2.1 hf₁.2.2.2]
    rw [runReattach_cleanFail_step _ _ _ _ _ (reattachPreamble_pending _ _)
      hf₂.1 hf₂.2.1 hf₂.2.2.1 hf₂.2.2.2]
    rw [runReattach_cleanFail_step _ _ _ _ _ (reattachPreamble_pending _ _)
      hf₃.1 hf₃.2.1 hf₃.2.2.1 hf₃.2.2.2]
    rw [runReattach_nil]
    exact ⟨rfl, not_mem_sdel_self _ _, reattachPreamble_tabs _ _⟩

/-- A concrete recoverable-detach environment whose three retries all
fail at the platform layer. -/
def allFailDetachEnv : DetachEnv :=
  { tabInfo := some (some "https://example.com")
    retries := [{ attachEnvMain := { attachOk := false } },
                { attachEnvMain := { attachOk := false } },
                { attachEnvMain := { attachOk := false } }] }

/-- A concrete tracked-tab state for exercising the reattach protocol. -/
def trackedTabState : RelayState :=
  { tabs := [(6, { state := .connected, sessionId := some "cb-tab-1"
                   targetId := some "T6" })]
    tabBySession := [("cb-tab-1", 6)]
    nextSession := 2
    debuggerAttached := [6] }

/-- Witness for C2: on the concrete tracked tab with three failing
retries, the full 300/700/1500 schedule runs and the tab ends detached
with Pending Reattach cleared. -/
theorem reattach_protocol_bounded_retries_witness :
    (onDebuggerDetach allFailDetachEnv trackedTabState 6 "target_closed").2
      = [300, 700, 1500] ∧
    6 ∉ (onDebuggerDetach allFailDetachEnv trackedTabState 6
      "target_closed").1.reattachPending ∧
    mget (onDebuggerDetach allFailDetachEnv trackedTabState 6
      "target_closed").1.tabs 6 = none := by
  exact reattach_protocol_bounded_retries.2.2.2.2.2.2 allFailDetachEnv
    trackedTabState 6 "target_closed" (some "https://example.com")
    { attachEnvMain := { attachOk := false } }
    { attachEnvMain := { attachOk := false } }
    { attachEnvMain := { attachOk := false } }
    (by unfold RecoverableDetach; refine ⟨?_, ?_, ?_, ?_, rfl, ?_, ?_⟩ <;> decide)
    rfl
    (by unfold RetryCleanFail; exact ⟨rfl, rfl, rfl, rfl⟩)
    (by unfold RetryCleanFail; exact ⟨rfl, rfl, rfl, rfl⟩)
    (by unfold RetryCleanFail; exact ⟨rfl, rfl, rfl, rfl⟩)

/-- The state exhibiting the C8 gap: one connected tab owning one child
session, about to fail the re-announcement liveness probe. -/
def orphanChildState : RelayState :=
  { tabs := [(1, { state := .connected, sessionId := some "cb-tab-1"
                   targetId := some "T1" })]
    tabBySession := [("cb-tab-1", 1)]
    childSessionToTab := [("child-1", 1)]
    nextSession := 2 }

/-- Counterexample to C8 as stated: the re-announcement prune path
removes the tab entry and its session-index entry but leaves the
child-session mapping behind, so a child-session entry points at a tab
with no live session. -/
theorem child_cleanup_counterexample :
    (reannounceAttachedTabs (fun _ => false) orphanChildState).tabs = [] ∧
    (reannounceAttachedTabs (fun _ => false) orphanChildState).tabBySession
      = [] ∧
    (reannounceAttachedTabs (fun _ => false) orphanChildState).childSessionToTab
      = [("child-1", 1)] := by
  exact ⟨rfl, rfl, rfl⟩

/-- C8 amended.  Explicit detach, tab removal (of a tracked tab), and
the involuntary-detach handler all remove every child-session mapping
owned by the tab in the same step; the re-announcement prune path does
not. -/
theorem child_mappings_follow_owner :
    (∀ (s : RelayState) (tabId : Nat) (c : String) (tid : Nat),
      (c, tid) ∈ (detachTab s tabId).childSessionToTab → tid ≠ tabId) ∧
    (∀ (s : RelayState) (tabId : Nat),
      mhas s.tabs tabId = true →
      ∀ (c : String) (tid : Nat),
        (c, tid) ∈ (onTabRemoved s tabId).childSessionToTab → tid ≠ tabId) ∧
    (∀ (env : DetachEnv) (s : RelayState) (tabId : Nat) (reason : String),
      tabId ≠ 0 → mhas s.tabs tabId = true → tabId ∉ s.reattachPending →
      ∀ (c : String) (tid : Nat),
        (c, tid) ∈ (onDebuggerDetach env s tabId reason).1.childSessionToTab →
        tid ≠ tabId) := by
  refine ⟨?_, ?_, ?_⟩
  · intro s tabId
    exact detachTab_children s tabId
  · intro s tabId hh c tid hmem
    unfold onTabRemoved at hmem
    rw [if_neg (fun hf => absurd (hh.symm.trans hf) (by decide))] at hmem
    cases hm : strTruthy ((mget ({ s with
        reattachPending := sdel s.reattachPending tabId } :
          RelayState).tabs tabId).bind (·.sessionId)) with
    | some sid =>
      simp only [hm] at hmem
      simpa using (List.mem_filter.mp hmem).2
    | none =>
      simp only [hm] at hmem
      simpa using (List.mem_filter.mp hmem).2
  · intro env s tabId reason h₀ hh hnp c tid hmem
    unfold onDebuggerDetach at hmem
    rw [if_neg h₀] at hmem
    rw [if_neg (fun hf => absurd (hh.symm.trans hf) (by decide))] at hmem
    by_cases hperm : reason = "canceled_by_user" ∨
        reason = "replaced_with_devtools"
    · rw [if_pos hperm] at hmem
      exact detachTab_children _ _ c tid hmem
    · rw [if_neg hperm] at hmem
      cases hti : env.tabInfo with
      | none =>
        simp only [hti] at hmem
        exact detachTab_children _ _ c tid hmem
      | some url =>
        simp only [hti] at hmem
        by_cases hsk : isSkippableUrl url = true
        · rw [if_pos hsk] at hmem
          exact detachTab_children _ _ c tid hmem
        · rw [if_neg hsk] at hmem
          rw [if_neg (by simpa using hnp)] at hmem
          rw [runReattach_childSessions] at hmem
          simpa using (List.mem_filter.mp hmem).2

/-- Witness for the amended C8: detaching tab 1 leaves the unrelated
child mapping of tab 9 intact, and that surviving entry indeed belongs
to a different tab. -/
theorem child_mappings_follow_owner_witness : (9 : Nat) ≠ 1 :=
  child_mappings_follow_owner.1
    { childSessionToTab := [("c9", 9)] } 1 "c9" 9 (by simp [detachTab, mget, strTruthy])

/-! ### C10: relay port parsing -/

/-- A value as read from chrome.storage.local. -/
inductive StoredValue
  | absent
  | str (s : String)
  | num (n : Int)
deriving DecidableEq, Repr

/-- JS decimal rendering of an integer. -/
def intToDecimal (n : Int) : String :=
  if n < 0 then "-" ++ natToDecimal n.natAbs else natToDecimal n.toNat

/-- JS `String(x || '')`: absent values, the empty string, and numeric
zero are falsy and yield the empty string; other numbers render in
decimal. -/
def storedToString : StoredValue → String
  | .absent => ""
  | .str s => s
  | .num n => if n = 0 then "" else intToDecimal n

/-- ASCII decimal digit test. -/
def isDigitChar (c : Char) : Bool := 48 ≤ c.toNat && c.toNat ≤ 57

/-- Value of an ASCII digit character. -/
def digitVal (c : Char) : Nat := c.toNat - 48

/-- Value of a run of decimal digit characters, most significant
first. -/
def digitsVal (l : List Char) : Nat :=
  l.foldl (fun a c => 10 * a + digitVal c) 0

/-- JS `Number.parseInt(s, 10)`: skip leading whitespace, read an
optional sign, then the longest run of decimal digits; `none` models the
NaN result (no digits).  JS doubles lose precision on very long digit
runs but classify against the port bounds identically, so the exact
integer is faithful for this use. -/
def jsParseInt10 (s : String) : Option Int :=
  match s.data.dropWhile isJsSpace with
  | [] => none
  | c :: rest =>
    if c = '-' then
      let ds := rest.takeWhile isDigitChar
      if ds = [] then none else some (-(digitsVal ds : Int))
    else if c = '+' then
      let ds := rest.takeWhile isDigitChar
      if ds = [] then none else some ((digitsVal ds : Int))
    else
      let ds := (c :: rest).takeWhile isDigitChar
      if ds = [] then none else some ((digitsVal ds : Int))

/-- The fallback relay port. -/
def DEFAULT_PORT : Int := 18792

/-- `getRelayPort()`: parse the stored `relayPort` value; a failed parse
or a value outside 1..65535 falls back to the default. -/
def getRelayPort (stored : StoredValue) : Int :=
  match jsParseInt10 (storedToString stored) with
  | none => DEFAULT_PORT
  | some n => if n ≤ 0 ∨ n > 65535 then DEFAULT_PORT else n

/-- `clampPort(value)` from the options page: the same parse and range
check as `getRelayPort`. -/
def clampPort (stored : StoredValue) : Int :=
  match jsParseInt10 (storedToString stored) with
  | none => DEFAULT_PORT
  | some n => if n ≤ 0 ∨ n > 65535 then DEFAULT_PORT else n

theorem digitChar10_isDigit : ∀ d < 10, isDigitChar (digitChar10 d) = true := by
  decide

theorem digitChar10_not_space : ∀ d < 10, isJsSpace (digitChar10 d) = false := by
  decide

theorem digitChar10_ne_dash : ∀ d < 10, digitChar10 d ≠ '-' := by decide

theorem digitChar10_ne_plus : ∀ d < 10, digitChar10 d ≠ '+' := by decide

theorem digitVal_digitChar10 : ∀ d < 10, digitVal (digitChar10 d) = d := by
  decide

theorem takeWhile_eq_self_of_all {α : Type _} (p : α → Bool) :
    ∀ l : List α, (∀ c ∈ l, p c = true) → l.takeWhile p = l := by
  intro l
  induction l with
  | nil => intro _; rfl
  | cons a as ih =>
    intro h
    simp [List.takeWhile_cons, h a (by simp), ih (fun c hc => h c (by simp [hc]))]

theorem digitsVal_rev_map (ds : List Nat) (hds : ∀ d ∈ ds, d < 10) :
    ∀ a : Nat,
      (ds.reverse.map digitChar10).foldl (fun x c => 10 * x + digitVal c) a
        = a * 10 ^ ds.length + Nat.ofDigits 10 ds := by
  induction ds with
  | nil =>
    intro a
    simp [Nat.ofDigits_nil]
  | cons d rest ih =>
    intro a
    have hd : d < 10 := hds d (by simp)
    have hrest : ∀ x ∈ rest, x < 10 := fun x hx => hds x (by simp [hx])
    rw [List.reverse_cons, List.map_append, List.foldl_append]
    rw [ih hrest a]
    simp only [List.map_cons, List.map_nil, List.foldl_cons, List.foldl_nil]
    rw [digitVal_digitChar10 d hd, Nat.ofDigits_cons, List.length_cons,
      pow_succ]
    ring

theorem natToDecimal_data (m : Nat) (hm : m ≠ 0) :
    (natToDecimal m).data = (Nat.digits 10 m).reverse.map digitChar10 := by
  unfold natToDecimal
  rw [if_neg hm]

theorem digitsVal_natToDecimal (m : Nat) (_hm : m ≠ 0) :
    digitsVal ((Nat.digits 10 m).reverse.map digitChar10) = m := by
  unfold digitsVal
  rw [digitsVal_rev_map (Nat.digits 10 m)
    (fun d hd => Nat.digits_lt_base (by norm_num) hd) 0]
  simp [Nat.ofDigits_digits]

theorem jsParseInt10_natToDecimal (m : Nat) (hm : m ≠ 0) :
    jsParseInt10 (natToDecimal m) = some (m : Int) := by
  unfold jsParseInt10
  rw [natToDecimal_data m hm]
  cases hrev : (Nat.digits 10 m).reverse with
  | nil =>
    exfalso
    have := congrArg List.reverse hrev
    simp only [List.reverse_reverse, List.reverse_nil] at this
    exact (Nat.digits_ne_nil_iff_ne_zero.mpr hm) this
  | cons d₀ ds =>
    have hall : ∀ d ∈ d₀ :: ds, d < 10 := by
      intro d hd
      have hd₂ : d ∈ Nat.digits 10 m := by
        rw [← List.mem_reverse, hrev]
        exact hd
      exact Nat.digits_lt_base (by norm_num) hd₂
    have hd₀ : d₀ < 10 := hall d₀ (by simp)
    simp only [List.map_cons]
    rw [List.dropWhile_cons]
    rw [digitChar10_not_space d₀ hd₀]
    simp only [Bool.false_eq_true, if_false]
    rw [if_neg (digitChar10_ne_dash d₀ hd₀), if_neg (digitChar10_ne_plus d₀ hd₀)]
    have htake : (digitChar10 d₀ :: ds.map digitChar10).takeWhile isDigitChar
        = digitChar10 d₀ :: ds.map digitChar10 := by
      refine takeWhile_eq_self_of_all _ _ ?_
      intro c hc
      rcases List.mem_cons.mp hc with hEq | hmem
      · rw [hEq]; exact digitChar10_isDigit d₀ hd₀
      · obtain ⟨d, hd, hEq⟩ := List.mem_map.mp hmem
        rw [← hEq]
        exact digitChar10_isDigit d (hall d (by simp [hd]))
    rw [htake]
    rw [if_neg (by simp)]
    have : digitChar10 d₀ :: ds.map digitChar10
        = (Nat.digits 10 m).reverse.map digitChar10 := by
      rw [hrev, List.map_cons]
    rw [this, digitsVal_natToDecimal m hm]

theorem jsParseInt10_intToDecimal (n : Int) (hn : n ≠ 0) :
    jsParseInt10 (intToDecimal n) = some n := by
  by_cases hneg : n < 0
  · have habs : n.natAbs ≠ 0 := by
      intro h
      exact hn (by omega)
    unfold intToDecimal
    rw [if_pos hneg]
    unfold jsParseInt10
    rw [String.data_append]
    rw [show ("-" : String).data = ['-'] from rfl]
    rw [natToDecimal_data _ habs]
    cases hrev : (Nat.digits 10 n.natAbs).reverse with
    | nil =>
      exfalso
      have := congrArg List.reverse hrev
      simp only [List.reverse_reverse, List.reverse_nil] at this
      exact (Nat.digits_ne_nil_iff_ne_zero.mpr habs) this
    | cons d₀ ds =>
      have hall : ∀ d ∈ d₀ :: ds, d < 10 := by
        intro d hd
        have hd₂ : d ∈ Nat.digits 10 n.natAbs := by
          rw [← List.mem_reverse, hrev]
          exact hd
        exact Nat.digits_lt_base (by norm_num) hd₂
      have hd₀ : d₀ < 10 := hall d₀ (by simp)
      simp only [List.map_cons, List.cons_append, List.nil_append]
      rw [List.dropWhile_cons]
      rw [show isJsSpace '-' = false from rfl]
      simp only [Bool.false_eq_true, if_false]
      simp only [if_true]
      have htake : (digitChar10 d₀ :: ds.map digitChar10).takeWhile isDigitChar
          = digitChar10 d₀ :: ds.map digitChar10 := by
        refine takeWhile_eq_self_of_all _ _ ?_
        intro c hc
        rcases List.mem_cons.mp hc with hEq | hmem
        · rw [hEq]; exact digitChar10_isDigit d₀ hd₀
        · obtain ⟨d, hd, hEq⟩ := List.mem_map.mp hmem
          rw [← hEq]
          exact digitChar10_isDigit d (hall d (by simp [hd]))
      rw [htake]
      rw [if_neg (by simp)]
      have hlist : digitChar10 d₀ :: ds.map digitChar10
          = (Nat.digits 10 n.natAbs).reverse.map digitChar10 := by
        rw [hrev, List.map_cons]
      rw [hlist, digitsVal_natToDecimal _ habs]
      congr 1
      omega
  · have hpos : 0 < n := by omega
    unfold intToDecimal
    rw [if_neg hneg]
    have htn : n.toNat ≠ 0 := by omega
    rw [jsParseInt10_natToDecimal _ htn]
    congr 1
    omega

/-- C10.  The relay port falls back to the default 18792 whenever the
stored value is absent, empty, non-numeric, zero, negative, or above
65535, and equals the parsed value whenever that value is strictly
between 0 and 65536; the options-page clamp agrees with the
background-worker parse. -/
theorem relay_port_parsing :
    getRelayPort .absent = 18792 ∧
    getRelayPort (.str "") = 18792 ∧
    getRelayPort (.str "abc") = 18792 ∧
    getRelayPort (.num 0) = 18792 ∧
    (∀ n : Int, n < 0 → getRelayPort (.num n) = 18792) ∧
    (∀ n : Int, n > 65535 → getRelayPort (.num n) = 18792) ∧
    (∀ n : Int, 0 < n → n ≤ 65535 → getRelayPort (.num n) = n) ∧
    (∀ v : StoredValue, clampPort v = getRelayPort v) := by
  refine ⟨rfl, rfl, by decide, rfl, ?_, ?_, ?_, fun v => rfl⟩
  · intro n hn
    unfold getRelayPort
    rw [show storedToString (.num n) = intToDecimal n from by
      show (if n = 0 then "" else intToDecimal n) = intToDecimal n
      rw [if_neg (show ¬n = 0 by omega)]]
    rw [jsParseInt10_intToDecimal n (by omega)]
    show (if n ≤ 0 ∨ n > 65535 then DEFAULT_PORT else n) = 18792
    rw [if_pos (Or.inl (by omega))]
    rfl
  · intro n hn
    unfold getRelayPort
    rw [show storedToString (.num n) = intToDecimal n from by
      show (if n = 0 then "" else intToDecimal n) = intToDecimal n
      rw [if_neg (show ¬n = 0 by omega)]]
    rw [jsParseInt10_intToDecimal n (by omega)]
    show (if n ≤ 0 ∨ n > 65535 then DEFAULT_PORT else n) = 18792
    rw [if_pos (Or.inr (by omega))]
    rfl
  · intro n hn₁ hn₂
    unfold getRelayPort
    rw [show storedToString (.num n) = intToDecimal n from by
      show (if n = 0 then "" else intToDecimal n) = intToDecimal n
      rw [if_neg (show ¬n = 0 by omega)]]
    rw [jsParseInt10_intToDecimal n (by omega)]
    show (if n ≤ 0 ∨ n > 65535 then DEFAULT_PORT else n) = n
    rw [if_neg (by omega)]

/-- Witness for C10 at concrete ports: 9222 is kept, -1 and 70000 fall
back to the default. -/
theorem relay_port_parsing_witness :
    getRelayPort (.num 9222) = 9222 ∧
    getRelayPort (.num (-1)) = 18792 ∧
    getRelayPort (.num 70000) = 18792 :=
  ⟨relay_port_parsing.2.2.2.2.2.2.1 9222 (by norm_num) (by norm_num),
   relay_port_parsing.2.2.2.2.1 (-1) (by norm_num),
   relay_port_parsing.2.2.2.2.2.1 70000 (by norm_num)⟩

end OpenClawRelay
